import Mathlib

/-!
Verification of the joker semantic analyzer / form parser (core/parse-ish
file of the repository) against its natural-language specification.

The Go source is shallowly embedded: read objects become an inductive
`Obj`, the mutable `ParseContext` is threaded explicitly, `panic` with a
`*ParseError` becomes an `Except` error, and the diagnostic sink (stderr
lines printed by `printParseWarning` / `printParseError`) is modeled as a
list of strings accumulated along successful paths.  Go runtime panics
(failed type assertions) are modeled as a distinct `Fail.goPanic` so they
are never confused with a `ParseError`.

Recursion: the source parser is mutually recursive through `Parse`.  The
model gives every sub-parser an explicit recursion parameter `p : PFun`
(the continuation standing for the recursive `Parse` call) and ties the
knot with a fuel-indexed `Parse`; running out of fuel is the distinct
result `Fail.outOfFuel`.  All definitions are executable and reduce
definitionally.

Scope notes (each repeated at the relevant definition):
* positions are not carried on read objects except the source filename of
  symbols, which `isCreatedByMacro` consults; diagnostic lines therefore
  elide the `file:line:col` positions printed by the source;
* the reader's Map and Set object variants, the `def`/`def-linter__`/
  `var`/`set-macro__` special forms, the `let*`/`letfn*`/`loop*` parser,
  the CLJS dialect branch of `parseSymbol` and the linter call-site
  diagnostics of `parseList` are outside the modeled fragment: no claim
  depends on them;
* mutations of the global environment (usage flags on vars and
  namespaces, interning) are outside the model; the environment is a
  read-only function in `Config`.
-/

namespace Joker

/-- A symbol of the read-object model: optional namespace part, local
name, and the filename of its source position (the only piece of position
information the analyzed fragment inspects, in `isCreatedByMacro`).
Symbol metadata is not carried: the only reads of it in the analyzed
fragment (`isSkipUnused` on binding names, `getTaggedTypes` in the
unmodeled call checks) do not affect any claim. -/
structure Symbol where
  ns : Option String
  name : String
  filename : Option String
deriving DecidableEq, Repr

/-- Symbol.Equals of the source compares namespace and name and ignores
position info. -/
def symEq (a b : Symbol) : Bool :=
  a.ns = b.ns && a.name = b.name

/-- Symbol.ToString(false): qualified name. -/
def Symbol.toStr (s : Symbol) : String :=
  match s.ns with
  | some n => n ++ "/" ++ s.name
  | none => s.name

/-- Read objects (the reader's output).  `list` is the source's Seq
(lazy sequence), `vec` its counted Vector; both carry a metadata map
restricted to keyword-name keys.  An empty metadata list models a nil
metadata map.  The reader's Map and Set variants are outside the modeled
fragment.  `typeObj` models a `*Type` value (as stored in the global
`TYPES` table and produced when a symbol names a built-in type). -/
inductive Obj where
  | nil
  | bool (b : Bool)
  | int (n : Int)
  | str (s : String)
  | keyword (name : String)
  | sym (s : Symbol)
  | list (elems : List Obj) (md : List (String × Obj))
  | vec (elems : List Obj) (md : List (String × Obj))
  | typeObj (name : String)

mutual

/-- Object.ToString(false) of the source, for the object shapes of the
model (unescaped printing, used in diagnostic messages). -/
def Obj.toStr : Obj → String
  | .nil => "nil"
  | .bool true => "true"
  | .bool false => "false"
  | .int n => toString n
  | .str s => s
  | .keyword k => ":" ++ k
  | .sym s => Symbol.toStr s
  | .list es _ => "(" ++ Obj.toStrList es ++ ")"
  | .vec es _ => "[" ++ Obj.toStrList es ++ "]"
  | .typeObj n => n

/-- Space-separated rendering of a sequence of objects. -/
def Obj.toStrList : List Obj → String
  | [] => ""
  | [x] => Obj.toStr x
  | x :: y :: xs => Obj.toStr x ++ " " ++ Obj.toStrList (y :: xs)

end

/-- Seq.First of the source: the first element, NIL when the sequence is
empty. -/
def firstD (es : List Obj) : Obj :=
  es.headD Obj.nil

/-- The n-th element (0-based).  `nth es 1` is the source's
`Second(seq)`, `nth es 2` `Third`, `nth es 3` `Fourth`; chained
First/Rest return NIL past the end. -/
def nth (es : List Obj) (i : Nat) : Obj :=
  es.getD i Obj.nil

/-- IsSymbol of the source. -/
def Obj.isSymbol : Obj → Bool
  | .sym _ => true
  | _ => false

/-- IsVector of the source. -/
def Obj.isVector : Obj → Bool
  | .vec _ _ => true
  | _ => false

/-- The metadata map of an object (GetMeta on the Meta-capable shapes of
the model). -/
def metaOf : Obj → List (String × Obj)
  | .list _ m => m
  | .vec _ m => m
  | _ => []

/-- The elements after the head (Seq.Rest), empty for non-sequences. -/
def restOf : Obj → List Obj
  | .list es _ => es.tail
  | _ => []

/-- Lookup in a metadata map by keyword name. -/
def metaGet (m : List (String × Obj)) (k : String) : Option Obj :=
  match m with
  | [] => none
  | (k2, v) :: rest => if k2 = k then some v else metaGet rest k

/-- A local binding descriptor (source `Binding`).  `inferredType` is
written only by the unmodeled `let` parser and read only by the unmodeled
type-inference linting; it is carried for shape fidelity. -/
structure Binding where
  name : Symbol
  index : Nat
  frame : Nat
  isUsed : Bool
  inferredType : Option String
deriving DecidableEq, Repr

/-- One lexical frame: local name to binding, Go map semantics (one entry
per name). -/
abbrev Frame := List (String × Binding)

/-- The source's `*Bindings` chain: a stack of frames, head innermost.
The empty list models the nil pointer. -/
abbrev Bindings := List Frame

/-- A global var (source `Var`), reduced to the fields the analyzed
fragment reads: home namespace name, local name, and the flags consulted
by `resolveMacro` and `isUnknownCallable`.  `hasValue` models
`Value != nil` and `hasExpr` models `expr != nil`. -/
structure GVar where
  ns : Option String
  name : String
  isMacro : Bool
  isFake : Bool
  hasValue : Bool
  hasExpr : Bool
deriving DecidableEq, Repr

/-- The mutable fields of the source's `ParseContext`. -/
structure ParseContext where
  localBindings : Bindings
  loopBindings : List (List Symbol)
  linterBindings : Bindings
  recur : Bool
  noRecurAllowed : Bool
  isUnknownCallableScope : Bool
deriving DecidableEq, Repr

/-- The read-only globals of the analyzer: LINTER_MODE, the WARNINGS
toggles, STR.coreFilename, and the global environment interface (spec
section 6), modeled as functions.  `macroEval` stands for the external
evaluator invoked on a macro call (spec sections 4.8 and 6). -/
structure Config where
  linterMode : Bool
  ifWithoutElse : Bool
  fnWithEmptyBody : Bool
  unusedFnParameters : Bool
  coreFilename : String
  currentNs : String
  types : List String
  resolve : Option String → String → Option GVar
  namespaceFor : Symbol → Option String
  knownMacros : List ((Option String × String) × Option (List Symbol))
  macroEval : Obj → Obj

/-- Failures that abort a parse: a `*ParseError` panic (offending object
and message), a Go runtime panic (failed type assertion; never a
ParseError), or fuel exhaustion of the model. -/
inductive Fail where
  | parseErr (obj : Obj) (msg : String)
  | goPanic (msg : String)
  | outOfFuel

/-- The expression AST (source `Expr` variants reached by the modeled
fragment).  A fn arity is (params, body, tagged type name); a catch
clause is (exception type name, binding symbol, body).  `defE` carries
only the fields `parseBody` inspects; the model never constructs it (the
`def` parser is outside the fragment) but `parseBody`'s inline-def check
is kept faithful to the source. -/
inductive Expr where
  | literal (obj : Obj) (isSurrogate : Bool)
  | vector (v : List Expr)
  | metaE (md : List (String × Expr)) (expr : Expr)
  | ifE (cond : Expr) (positive : Expr) (negative : Expr)
  | defE (name : Symbol) (isCreatedByMacro : Bool)
  | call (callable : Expr) (args : List Expr)
  | recurE (args : List Expr)
  | varRef (vr : GVar)
  | bindingE (b : Binding)
  | doE (body : List Expr) (isCreatedByMacro : Bool)
  | fnE (arities : List (List Symbol × List Expr × Option String))
      (variadic : Option (List Symbol × List Expr × Option String))
      (self : Option Symbol)
  | throwE (e : Expr)
  | tryE (body : List Expr)
      (catches : List (String × Symbol × List Expr))
      (finallyExpr : Option (List Expr))

/-- A fn arity: parameter symbols, parsed body, tagged return type. -/
abbrev FnArityT := List Symbol × List Expr × Option String

/-- Result of a parsing step: failure, or value with the updated context
and the diagnostic lines emitted.  The source prints diagnostics eagerly
to stderr; the model accumulates them along successful paths only (no
claim inspects the diagnostics of a failing run). -/
abbrev Res (α : Type) := Except Fail (α × ParseContext × List String)

/-- The type of the recursive `Parse` call threaded through the
sub-parsers. -/
abbrev PFun := Obj → ParseContext → Res Expr

/-- Sequencing of parsing steps: thread the context, concatenate the
emitted diagnostics in order. -/
def bindE {α β : Type} (x : Res α) (f : α → ParseContext → Res β) : Res β :=
  match x with
  | .error e => .error e
  | .ok (a, ctx, w) =>
    match f a ctx with
    | .error e => .error e
    | .ok (b, ctx2, w2) => .ok (b, ctx2, w ++ w2)

/-- A step that returns a value without diagnostics. -/
def pureR {α : Type} (a : α) (ctx : ParseContext) : Res α :=
  .ok (a, ctx, [])

/-- Prepend already-emitted diagnostic lines to a result. -/
def prependW {α : Type} (w : List String) (r : Res α) : Res α :=
  match r with
  | .error e => .error e
  | .ok (a, ctx, w2) => .ok (a, ctx, w ++ w2)

/-- printParseWarning of the source: the line added to the diagnostic
sink (position elided, see the file header). -/
def printParseWarning (msg : String) : String :=
  "Parse warning: " ++ msg

/-- printParseError of the source (the linter-mode downgraded error),
as the line added to the diagnostic sink. -/
def printParseError (msg : String) : String :=
  "Parse error: " ++ msg

/-- Lookup in a frame by local name. -/
def frameGet (f : Frame) (n : String) : Option Binding :=
  match f with
  | [] => none
  | (k, b) :: rest => if k = n then some b else frameGet rest n

/-- Go map assignment into a frame: replace the entry when the name is
present, otherwise add it. -/
def frameSet (f : Frame) (n : String) (b : Binding) : Frame :=
  match f with
  | [] => [(n, b)]
  | (k, b0) :: rest => if k = n then (k, b) :: rest else (k, b0) :: frameSet rest n b

/-- Bindings.GetBinding: search the frames innermost first by the
symbol's local name. -/
def Bindings.getBinding (b : Bindings) (sym : Symbol) : Option Binding :=
  match b with
  | [] => none
  | f :: rest =>
    match frameGet f sym.name with
    | some bd => some bd
    | none => Bindings.getBinding rest sym

/-- Mark the innermost binding of the given name used (the
`b.isUsed = true` pointer write of `parseSymbol`). -/
def Bindings.markUsed (b : Bindings) (n : String) : Bindings :=
  match b with
  | [] => []
  | f :: rest =>
    match frameGet f n with
    | some bd => frameSet f n { bd with isUsed := true } :: rest
    | none => f :: Bindings.markUsed rest n

/-- isSkipUnused on a binding symbol.  Symbol metadata is not carried in
the model (see `Symbol`), so this is constantly false; no claim depends
on the `:skip-unused` symbol annotation. -/
def isSkipUnused (_s : Symbol) : Bool :=
  false

/-- needsUnusedWarning of the source. -/
def needsUnusedWarning (b : Binding) : Bool :=
  !b.isUsed && !b.name.name.startsWith "_" && !b.name.name.startsWith "&form" &&
    !b.name.name.startsWith "&env" && !isSkipUnused b.name

/-- Bindings.AddBinding: the linter's shadowed-unused-binding warning,
then Go map assignment into the innermost frame, with the frame number of
that frame.  Returns the updated stack and the emitted lines.  Writing
through a nil `*Bindings` would be a Go panic; all call sites push a
frame first, and the model returns the empty stack unchanged there. -/
def Bindings.addBinding (cfg : Config) (b : Bindings) (sym : Symbol) (index : Nat)
    (skipUnused : Bool) (inferredType : Option String) : Bindings × List String :=
  match b with
  | [] => ([], [])
  | f :: rest =>
    let w :=
      if cfg.linterMode && !skipUnused then
        match frameGet f sym.name with
        | some old =>
          if needsUnusedWarning old then
            [printParseWarning ("Unused binding: " ++ Symbol.toStr old.name)]
          else []
        | none => []
      else []
    (frameSet f sym.name
        { name := sym, index := index, frame := rest.length, isUsed := false,
          inferredType := inferredType } :: rest,
      w)

/-- ParseContext.PushEmptyLocalFrame. -/
def ParseContext.pushEmptyLocalFrame (ctx : ParseContext) : ParseContext :=
  { ctx with localBindings := [] :: ctx.localBindings }

/-- ParseContext.PushLocalFrame: empty frame, then AddBinding for each
name with its position index and skipUnused true.  With skipUnused true
the AddBinding warning branch is statically off, so no diagnostics are
produced here. -/
def ParseContext.pushLocalFrame (cfg : Config) (ctx : ParseContext)
    (names : List Symbol) : ParseContext :=
  let ctx1 := ctx.pushEmptyLocalFrame
  { ctx1 with
    localBindings :=
      (names.enum.foldl
        (fun b (pr : Nat × Symbol) =>
          (Bindings.addBinding cfg b pr.2 pr.1 true none).1)
        ctx1.localBindings) }

/-- ParseContext.PopLocalFrame. -/
def ParseContext.popLocalFrame (ctx : ParseContext) : ParseContext :=
  { ctx with localBindings := ctx.localBindings.tail }

/-- ParseContext.GetLocalBinding: a namespace-qualified symbol is never
looked up in the local scope. -/
def ParseContext.getLocalBinding (ctx : ParseContext) (sym : Symbol) : Option Binding :=
  if sym.ns ≠ none then none
  else ctx.localBindings.getBinding sym

/-- ParseContext.PushLoopBindings (head of the list is the innermost
entry). -/
def ParseContext.pushLoopBindings (ctx : ParseContext) (bs : List Symbol) : ParseContext :=
  { ctx with loopBindings := bs :: ctx.loopBindings }

/-- ParseContext.PopLoopBindings. -/
def ParseContext.popLoopBindings (ctx : ParseContext) : ParseContext :=
  { ctx with loopBindings := ctx.loopBindings.tail }

/-- ParseContext.GetLoopBindings: the innermost entry, none when the
stack is empty.  The source returns a nil slice exactly when the stack is
empty: every pushed slice is created non-nil. -/
def ParseContext.getLoopBindings (ctx : ParseContext) : Option (List Symbol) :=
  ctx.loopBindings.head?

/-- The special-form name strings (source `STR`).  Modelled from the
spec: the `Str` table is populated outside the analyzed file; the spec's
special-form list (section 1 and the 4.2 table) names the forms, with the
internal starred spellings for fn/let/letfn/loop. -/
def STR_quote : String := "quote"
def STR_if : String := "if"
def STR_fn : String := "fn*"
def STR_let : String := "let*"
def STR_letfn : String := "letfn*"
def STR_loop : String := "loop*"
def STR_recur : String := "recur"
def STR_setMacro : String := "set-macro__"
def STR_def : String := "def"
def STR_defLinter : String := "def-linter__"
def STR_var : String := "var"
def STR_do : String := "do"
def STR_throw : String := "throw"
def STR_try : String := "try"

/-- SYMBOLS.amp.  Modelled from the spec: the `Symbols` table is
populated outside the analyzed file (spec section 4.3 names the `&`
token). -/
def ampSym : Symbol := ⟨none, "&", none⟩

/-- SYMBOLS.catch (spec section 4.6). -/
def catchSym : Symbol := ⟨none, "catch", none⟩

/-- SYMBOLS.finally (spec section 4.6). -/
def finallySym : Symbol := ⟨none, "finally", none⟩

/-- isCatch of the source: a sequence whose first element equals the
`catch` symbol. -/
def isCatch : Obj → Bool
  | .list es _ =>
    match firstD es with
    | .sym s => symEq s catchSym
    | _ => false
  | _ => false

/-- isFinally of the source. -/
def isFinally : Obj → Bool
  | .list es _ =>
    match firstD es with
    | .sym s => symEq s finallySym
    | _ => false
  | _ => false

/-- isCreatedByMacro of the source: whether the first element of the form
carries the core filename as its source position.  On a form whose head
has no position info the source would dereference a nil pointer; the
model returns false there (no claim reaches that case). -/
def isCreatedByMacro (cfg : Config) (elems : List Obj) : Bool :=
  match firstD elems with
  | .sym s => s.filename = some cfg.coreFilename
  | _ => false

/-- skipRedundantDo of the source: the `:skip-redundant-do` metadata
entry equals Boolean true. -/
def skipRedundantDo (o : Obj) : Bool :=
  match metaGet (metaOf o) "skip-redundant-do" with
  | some (.bool true) => true
  | _ => false

/-- getTaggedType of the source: the `:tag` metadata entry, when it is a
symbol naming a built-in type. -/
def getTaggedType (cfg : Config) (m : List (String × Obj)) : Option String :=
  match metaGet m "tag" with
  | some (.sym s) => if cfg.types.contains s.name then some s.name else none
  | _ => none

/-- checkForm of the source: arity bounds of a special form, as the
ParseError it panics with (none when within bounds). -/
def checkForm (obj : Obj) (elems : List Obj) (lo hi : Nat) : Option Fail :=
  if elems.length < lo then
    some (.parseErr obj ("Too few arguments to " ++ (firstD elems).toStr))
  else if elems.length > hi then
    some (.parseErr obj ("Too many arguments to " ++ (firstD elems).toStr))
  else none

/-- Modelled from the spec: `generateSymbol` (defined outside the
analyzed file) returns a freshly generated symbol with the given prefix
string; the spec leaves the generated names' determinism unspecified
(section 9, open questions), and no claim inspects them, so the model
uses a fixed name. -/
def generateSymbol (pre : String) : Symbol :=
  ⟨none, pre ++ "__auto__", none⟩

/-- The non-symbol-binding check shared by the parameter positions of
`parseParams`: linter mode substitutes a generated symbol, strict mode
panics. -/
def checkBindingSym (cfg : Config) (ro : Obj) : Except Fail Symbol :=
  match ro with
  | .sym s => .ok s
  | _ =>
    if cfg.linterMode then .ok (generateSymbol "linter")
    else .error (.parseErr ro ("Unsupported binding form: " ++ ro.toStr))

/-- The loop of `parseParams` over the parameter vector's elements, with
the symbols accumulated so far.  At the `&` element: two or more
following elements is a ParseError naming the second one; exactly one
following element becomes the variadic parameter (appended, variadic
true); none silently ends the list (variadic false). -/
def parseParamsLoop (cfg : Config) (elems : List Obj) (res : List Symbol) :
    Except Fail (List Symbol × Bool) :=
  match elems with
  | [] => .ok (res, false)
  | ro :: rest =>
    match checkBindingSym cfg ro with
    | .error e => .error e
    | .ok sym =>
      if symEq sym ampSym then
        match rest with
        | [] => .ok (res, false)
        | [v] =>
          match checkBindingSym cfg v with
          | .error e => .error e
          | .ok vsym => .ok (res ++ [vsym], true)
        | _ :: extra :: _ =>
          .error (.parseErr extra ("Unexpected parameter: " ++ extra.toStr))
      else parseParamsLoop cfg rest (res ++ [sym])

/-- parseParams of the source.  The argument is type-asserted to
`*Vector` there; a non-vector is a Go runtime panic (callers guarantee a
vector). -/
def parseParams (cfg : Config) (params : Obj) : Except Fail (List Symbol × Bool) :=
  match params with
  | .vec elems _ => parseParamsLoop cfg elems []
  | _ => .error (.goPanic "parseParams: params is not a *Vector")

/-- parseSeq of the source: parse each element in order. -/
def parseSeq (p : PFun) (elems : List Obj) (ctx : ParseContext) : Res (List Expr) :=
  match elems with
  | [] => pureR [] ctx
  | x :: rest =>
    bindE (p x ctx) fun e ctx2 =>
      bindE (parseSeq p rest ctx2) fun es ctx3 =>
        pureR (e :: es) ctx3

/-- parseVector of the source: parse each element in index order. -/
def parseVector (p : PFun) (elems : List Obj) (ctx : ParseContext) : Res Expr :=
  bindE (parseSeq p elems ctx) fun es ctx2 =>
    pureR (.vector es) ctx2

/-- parseMap of the source, restricted to the metadata maps of the model:
keys are keyword names (their parses are literals with no context or
diagnostic effect and are kept as the names); values are parsed in map
order. -/
def parseMetaMap (p : PFun) (m : List (String × Obj)) (ctx : ParseContext) :
    Res (List (String × Expr)) :=
  match m with
  | [] => pureR [] ctx
  | (k, v) :: rest =>
    bindE (p v ctx) fun ve ctx2 =>
      bindE (parseMetaMap p rest ctx2) fun res ctx3 =>
        pureR ((k, ve) :: res) ctx3

/-- The linter checks `parseBody` runs on each parsed expression (source
lines: inline def when a DefExpr not created by a macro; redundant do
when a DoExpr not created by a macro and the original object does not
carry `:skip-redundant-do`). -/
def bodyLinterChecks (cfg : Config) (expr : Expr) (ro : Obj) : List String :=
  if cfg.linterMode then
    match expr with
    | .defE _ icm => if !icm then [printParseWarning "inline def"] else []
    | .doE _ icm =>
      if !icm && !skipRedundantDo ro then [printParseWarning "redundant do form"]
      else []
    | _ => []
  else []

/-- The loop of `parseBody`: parse an element; if that set the recur flag
and more elements follow and the mode is strict, panic "Can only recur
from tail position" (in linter mode the check is skipped and parsing
continues); then run the linter per-expression checks and continue. -/
def parseBodyLoop (cfg : Config) (p : PFun) (elems : List Obj) (ctx : ParseContext) :
    Res (List Expr) :=
  match elems with
  | [] => pureR [] ctx
  | ro :: rest =>
    match p ro ctx with
    | .error e => .error e
    | .ok (expr, ctx2, w) =>
      if ctx2.recur && !rest.isEmpty && !cfg.linterMode then
        .error (.parseErr ro "Can only recur from tail position")
      else
        match parseBodyLoop cfg p rest ctx2 with
        | .error e => .error e
        | .ok (es, ctx3, w2) =>
          .ok (expr :: es, ctx3, w ++ (bodyLinterChecks cfg expr ro ++ w2))

/-- parseBody of the source: save the recur flag, clear it, run the loop,
restore the flag on exit. -/
def parseBody (cfg : Config) (p : PFun) (elems : List Obj) (ctx : ParseContext) :
    Res (List Expr) :=
  let saved := ctx.recur
  match parseBodyLoop cfg p elems { ctx with recur := false } with
  | .error e => .error e
  | .ok (es, ctx2, w) => .ok (es, { ctx2 with recur := saved }, w)

/-- parseRecur of the source: panic when recur is not allowed (inside a
try body); panic when there is no enclosing loop-bindings entry; parse
the arguments; panic on an argument-count mismatch; otherwise mark the
recur flag and return the RecurExpr. -/
def parseRecur (p : PFun) (obj : Obj) (ctx : ParseContext) : Res Expr :=
  if ctx.noRecurAllowed then .error (.parseErr obj "Cannot recur across try")
  else
    match ctx.getLoopBindings with
    | none => .error (.parseErr obj "No recursion point for recur")
    | some loopBindings =>
      match obj with
      | .list elems _ =>
        bindE (parseSeq p elems.tail ctx) fun args ctx2 =>
          if loopBindings.length ≠ args.length then
            .error (.parseErr obj ("Mismatched argument count to recur, expected: " ++
              toString loopBindings.length ++ " args, got: " ++ toString args.length))
          else .ok (.recurE args, { ctx2 with recur := true }, [])
      | _ => .error (.goPanic "parseRecur: obj is not a Seq")

/-- resolveType of the source: parse the object; a literal holding a
`*Type` yields that type; otherwise linter mode falls back to the Error
sentinel type and strict mode panics. -/
def resolveType (cfg : Config) (p : PFun) (obj : Obj) (ctx : ParseContext) : Res String :=
  bindE (p obj ctx) fun excType ctx2 =>
    match excType with
    | .literal (.typeObj t) _ => pureR t ctx2
    | _ =>
      if cfg.linterMode then pureR "Error" ctx2
      else .error (.parseErr obj ("Unable to resolve type: " ++ obj.toStr))

/-- parseCatch of the source: at least two arguments; the type is
resolved first, then the binding symbol is checked, bound in a fresh
frame, and the body parsed. -/
def parseCatch (cfg : Config) (p : PFun) (obj : Obj) (ctx : ParseContext) :
    Res (String × Symbol × List Expr) :=
  match obj with
  | .list elems _ =>
    let seq := elems.tail
    if seq.length < 2 then
      .error (.parseErr obj "catch requires at least two arguments: type symbol and binding symbol")
    else
      bindE (resolveType cfg p (firstD seq) ctx) fun excType ctx2 =>
        match nth seq 1 with
        | .sym s =>
          let ctx3 := ctx2.pushLocalFrame cfg [s]
          bindE (parseBody cfg p (seq.tail.tail) ctx3) fun body ctx4 =>
            pureR (excType, s, body) ctx4.popLocalFrame
        | excSymbol =>
          .error (.parseErr excSymbol ("Bad binding form, expected symbol, got: " ++ excSymbol.toStr))
  | _ => .error (.goPanic "parseCatch: obj is not a Seq")

/-- parseFinally of the source. -/
def parseFinally (cfg : Config) (p : PFun) (body : List Obj) (ctx : ParseContext) :
    Res (List Expr) :=
  parseBody cfg p body ctx

/-- The classification state of the `parseTry` loop (source constants
Regular / Catch / Finally). -/
inductive TryClauseKind where
  | Regular
  | Catch
  | Finally
deriving DecidableEq, Repr

/-- The TryExpr under construction: body so far, catches so far, finally
body (none models the nil slice: no finally clause seen). -/
structure TryAcc where
  body : List Expr
  catches : List (String × Symbol × List Expr)
  finallyExpr : Option (List Expr)

/-- The loop of `parseTry`, classifying each child in order.  Any child
while the state is Finally panics; a catch child is parsed and moves the
state to Catch; a finally child is parsed and moves it to Finally; any
other child while the state is Catch panics; otherwise the child is a
regular body expression. -/
def parseTryLoop (cfg : Config) (p : PFun) (elems : List Obj) (lastType : TryClauseKind)
    (acc : TryAcc) (ctx : ParseContext) : Res TryAcc :=
  match elems with
  | [] => pureR acc ctx
  | obj :: rest =>
    if lastType = TryClauseKind.Finally then
      .error (.parseErr obj "finally clause must be last in try expression")
    else if isCatch obj then
      bindE (parseCatch cfg p obj ctx) fun c ctx2 =>
        parseTryLoop cfg p rest TryClauseKind.Catch
          { acc with catches := acc.catches ++ [c] } ctx2
    else if isFinally obj then
      bindE (parseFinally cfg p (restOf obj) ctx) fun f ctx2 =>
        parseTryLoop cfg p rest TryClauseKind.Finally
          { acc with finallyExpr := some f } ctx2
    else if lastType = TryClauseKind.Catch then
      .error (.parseErr obj "Only catch or finally clause can follow catch in try expression")
    else
      bindE (p obj ctx) fun e ctx2 =>
        parseTryLoop cfg p rest lastType { acc with body := acc.body ++ [e] } ctx2

/-- parseTry of the source: set no-recur-allowed around the loop, then in
linter mode warn on an empty body, on a try without catch or finally, and
on a finally clause with an empty body. -/
def parseTry (cfg : Config) (p : PFun) (obj : Obj) (ctx : ParseContext) : Res Expr :=
  match obj with
  | .list elems _ =>
    let saved := ctx.noRecurAllowed
    bindE (parseTryLoop cfg p elems.tail TryClauseKind.Regular ⟨[], [], none⟩
        { ctx with noRecurAllowed := true }) fun acc ctx2 =>
      let w :=
        if cfg.linterMode then
          (if acc.body.isEmpty then [printParseWarning "try form with empty body"] else []) ++
          (if acc.catches.isEmpty && acc.finallyExpr.isNone then
            [printParseWarning "try form without catch or finally"] else []) ++
          (match acc.finallyExpr with
            | some [] => [printParseWarning "finally form with empty body"]
            | _ => [])
        else []
      .ok (.tryE acc.body acc.catches acc.finallyExpr,
        { ctx2 with noRecurAllowed := saved }, w)
  | _ => .error (.goPanic "parseTry: obj is not a Seq")

/-- The FnExpr under construction (source FnExpr without Position):
fixed arities in insertion order, the variadic arity, the self
symbol. -/
structure FnAcc where
  arities : List FnArityT
  variadic : Option FnArityT
  self : Option Symbol

/-- The arity-registration checks of `addArity` (the block after the body
parse): a second variadic overload panics; a variadic with some fixed
arity of at least its parameter count panics; a fixed arity equal in
count to an existing one panics; a fixed arity of at least the variadic's
parameter count panics; otherwise the arity is recorded. -/
def registerArity (fn : FnAcc) (params : Obj) (args : List Symbol) (isVariadic : Bool)
    (arity : FnArityT) : Except Fail FnAcc :=
  if isVariadic then
    if fn.variadic.isSome then
      .error (.parseErr params "Can't have more than 1 variadic overload")
    else if fn.arities.any (fun a => a.1.length ≥ args.length) then
      .error (.parseErr params "Can't have fixed arity function with more params than variadic function")
    else .ok { fn with variadic := some arity }
  else
    if fn.arities.any (fun a => a.1.length = args.length) then
      .error (.parseErr params "Can't have 2 overloads with same arity")
    else
      match fn.variadic with
      | some v =>
        if args.length ≥ v.1.length then
          .error (.parseErr params "Can't have fixed arity function with more params than variadic function")
        else .ok { fn with arities := fn.arities ++ [arity] }
      | none => .ok { fn with arities := fn.arities ++ [arity] }

/-- The innermost local frame. -/
def topFrame (ctx : ParseContext) : Frame :=
  ctx.localBindings.headD []

/-- Insertion sort by symbol name (the source sorts with BySymbolName;
modelled from the spec: deterministic lexicographic order by name,
section 5). -/
def sortSymbolsByName (l : List Symbol) : List Symbol :=
  List.insertionSort (fun a b => a.name ≤ b.name) l

/-- The linter warnings at the end of `addArity`: empty fn body, and the
unused parameters of the arity's frame collected and sorted by name. -/
def fnLinterWarnings (cfg : Config) (bodyExprs : List Expr) (ctx : ParseContext) :
    List String :=
  if cfg.linterMode then
    (if cfg.fnWithEmptyBody && bodyExprs.isEmpty then
      [printParseWarning "fn form with empty body"] else []) ++
    (if cfg.unusedFnParameters then
      (sortSymbolsByName ((topFrame ctx).filterMap
          (fun pr => if needsUnusedWarning pr.2 then some pr.2.name else none))).map
        (fun u => printParseWarning ("unused parameter: " ++ Symbol.toStr u))
    else [])
  else []

/-- addArity of the source: parse the parameter vector; push a local
frame with the parameters, push them as loop bindings, clear
no-recur-allowed; parse the body into the arity (with the parameter
vector's `:tag` type); run the registration checks; emit the linter
warnings; restore the context on exit. -/
def addArity (cfg : Config) (p : PFun) (fn : FnAcc) (sig : List Obj) (ctx : ParseContext) :
    Res FnAcc :=
  let params := firstD sig
  let body := sig.tail
  match parseParams cfg params with
  | .error e => .error e
  | .ok (args, isVariadic) =>
    let saved := ctx.noRecurAllowed
    let ctx1 := { (ctx.pushLocalFrame cfg args).pushLoopBindings args with
      noRecurAllowed := false }
    bindE (parseBody cfg p body ctx1) fun bodyExprs ctx2 =>
      let arity : FnArityT := (args, bodyExprs, getTaggedType cfg (metaOf params))
      match registerArity fn params args isVariadic arity with
      | .error e => .error e
      | .ok fn2 =>
        .ok (fn2,
          { ctx2.popLoopBindings.popLocalFrame with noRecurAllowed := saved },
          fnLinterWarnings cfg bodyExprs ctx2)

/-- wrapWithMeta of the source: when the fn form carries metadata, wrap
the FnExpr in a MetaExpr holding the parsed metadata map. -/
def wrapWithMeta (p : PFun) (fnExpr : Expr) (obj : Obj) (ctx : ParseContext) : Res Expr :=
  match metaOf obj with
  | [] => pureR fnExpr ctx
  | m =>
    bindE (parseMetaMap p m ctx) fun me ctx2 =>
      pureR (.metaE me fnExpr) ctx2

/-- The multiple-arities loop of `parseFn`: each body must be a sequence
whose first element is a parameter vector, fed to `addArity`. -/
def parseFnArities (cfg : Config) (p : PFun) (fn : FnAcc) (bodies : List Obj)
    (ctx : ParseContext) : Res FnAcc :=
  match bodies with
  | [] => pureR fn ctx
  | body :: rest =>
    match body with
    | .list ses _ =>
      let params := firstD ses
      if !params.isVector then
        .error (.parseErr params ("Parameter declaration must be a vector. Got: " ++ params.toStr))
      else
        bindE (addArity cfg p fn ses ctx) fun fn2 ctx2 =>
          parseFnArities cfg p fn2 rest ctx2
    | _ => .error (.parseErr body ("Function body must be a list. Got: " ++ body.toStr))

/-- The part of `parseFn` after the self-reference handling: a vector
head means a single arity; otherwise an empty rest is "Parameter
declaration missing" and each remaining child is an arity list. -/
def parseFnRest (cfg : Config) (p : PFun) (obj : Obj) (fn0 : FnAcc) (bodies : List Obj)
    (ctx : ParseContext) : Res Expr :=
  let pd := firstD bodies
  if pd.isVector then
    bindE (addArity cfg p fn0 bodies ctx) fun fn ctx2 =>
      wrapWithMeta p (.fnE fn.arities fn.variadic fn.self) obj ctx2
  else if bodies.isEmpty then
    .error (.parseErr pd "Parameter declaration missing")
  else
    bindE (parseFnArities cfg p fn0 bodies ctx) fun fn ctx2 =>
      wrapWithMeta p (.fnE fn.arities fn.variadic fn.self) obj ctx2

/-- parseFn of the source: an optional self symbol is bound in a frame
surrounding all arities, then the arities are collected. -/
def parseFn (cfg : Config) (p : PFun) (obj : Obj) (ctx : ParseContext) : Res Expr :=
  match obj with
  | .list elems _ =>
    let bodies := elems.tail
    match firstD bodies with
    | .sym s =>
      bindE (parseFnRest cfg p obj ⟨[], none, some s⟩ bodies.tail
          (ctx.pushLocalFrame cfg [s])) fun e ctx2 =>
        pureR e ctx2.popLocalFrame
    | _ => parseFnRest cfg p obj ⟨[], none, none⟩ bodies ctx
  | _ => .error (.goPanic "parseFn: obj is not a Seq")

/-- resolveMacro of the source: a symbol head with no local binding that
resolves to a var that is a macro with a value.  A macro var without a
namespace is a ParseError ("No namespace for ...").  The usage-flag
writes on the var and its namespace mutate the external environment and
are outside the model. -/
def resolveMacro (cfg : Config) (ctx : ParseContext) (op : Obj) :
    Except Fail (Option GVar) :=
  match op with
  | .sym s =>
    if (ctx.getLocalBinding s).isSome then .ok none
    else
      match cfg.resolve s.ns s.name with
      | none => .ok none
      | some vr =>
        if !vr.isMacro || !vr.hasValue then .ok none
        else if vr.ns = none then
          .error (.parseErr op ("No namespace for " ++ vr.name))
        else .ok (some vr)
  | _ => .ok none

/-- fixInfo of the source reattaches source positions (and carries over
metadata) while rebuilding the replacement object.  The model carries no
positions on composite objects, so the rebuild is the identity. -/
def fixInfo (o : Obj) : Obj :=
  o

/-- macroexpand1 of the source: when the head resolves to a macro, the
macro is run by the external evaluator on a MacroCallExpr built from the
form (spec section 4.8); `Config.macroEval` stands for that call.  The
source signals "no expansion" by returning the input sequence itself
(pointer equality at the call site); the model returns none in that
case. -/
def macroexpand1 (cfg : Config) (elems : List Obj) (obj : Obj) (ctx : ParseContext) :
    Except Fail (Option Obj) :=
  match resolveMacro cfg ctx (firstD elems) with
  | .error e => .error e
  | .ok none => .ok none
  | .ok (some _) => .ok (some (fixInfo (cfg.macroEval obj)))

/-- isKnownMacros of the source: lookup in the `*known-macros*` map (the
lazy resolution of the KNOWN_MACROS var is collapsed into the config; a
missing var behaves as an empty map).  The found value's sequence of
parameter symbols, when it is Seqable, rides along. -/
def isKnownMacros (cfg : Config) (sym : Symbol) : Bool × Option (List Symbol) :=
  match cfg.knownMacros.lookup (sym.ns, sym.name) with
  | some v => (true, v)
  | none => (false, none)

/-- isUnknownCallable of the source (linter mode only): a VarRef to a
macro var; or to a var in the known-macros map (keyed by its qualified
name unless it lives in the current or core namespace); or to a fake var
without an expression outside the core namespace.  Namespace identity is
compared by name against the current namespace and `joker.core`. -/
def isUnknownCallable (cfg : Config) (expr : Expr) : Bool × Option (List Symbol) :=
  if !cfg.linterMode then (false, none)
  else
    match expr with
    | .varRef vr =>
      if vr.isMacro then (true, none)
      else
        let sym : Symbol :=
          if vr.ns ≠ some cfg.currentNs ∧ vr.ns ≠ some "joker.core" then
            ⟨vr.ns, vr.name, none⟩
          else ⟨none, vr.name, none⟩
        let bs := isKnownMacros cfg sym
        if bs.1 then bs
        else if vr.hasExpr then (false, none)
        else if sym.ns = none ∧ vr.isFake ∧ vr.ns ≠ some "joker.core" then (true, none)
        else (false, none)
    | _ => (false, none)

/-- Push a linter-bindings frame holding the known-macro parameter
symbols (the loop over `syms` in `parseList`; AddBinding with index 0 and
skipUnused true, whose warning branch is statically off). -/
def pushLinterFrame (cfg : Config) (ctx : ParseContext) (syms : List Symbol) :
    ParseContext :=
  { ctx with
    linterBindings :=
      syms.foldl (fun b s => (Bindings.addBinding cfg b s 0 true none).1)
        ([] :: ctx.linterBindings) }

/-- Pop the linter-bindings frame. -/
def popLinterFrame (ctx : ParseContext) : ParseContext :=
  { ctx with linterBindings := ctx.linterBindings.tail }

/-- The function-call fall-through of `parseList` (after the special-form
switch): restore the saved unknown-callable scope flag, parse the
callable, set the flag from `isUnknownCallable` (pushing the known-macro
parameter frame when one rides along), parse the arguments, build the
CallExpr.  The linter call-site diagnostics that follow in the source
(arity and type-tag warnings, immediate evaluation of namespace
operations) consult evaluator-owned values and are outside the modeled
fragment: they add diagnostics and environment effects only. -/
def parseCall (cfg : Config) (p : PFun) (elems : List Obj) (s0 : Bool)
    (ctx : ParseContext) : Res Expr :=
  bindE (p (firstD elems) { ctx with isUnknownCallableScope := s0 }) fun callable ctx1 =>
    let us := isUnknownCallable cfg callable
    let ctx2 := { ctx1 with isUnknownCallableScope := us.1 }
    let pushed := us.1 && us.2.isSome
    let ctx3 :=
      match us.2 with
      | some syms => if us.1 then pushLinterFrame cfg ctx2 syms else ctx2
      | none => ctx2
    bindE (parseSeq p elems.tail ctx3) fun args ctx4 =>
      pureR (.call callable args) (if pushed then popLinterFrame ctx4 else ctx4)

/-- Restore the saved isUnknownCallableScope flag on exit from
`parseList` (its deferred restore; error paths abort the whole parse, so
only the success path is observable). -/
def restoreScope (s0 : Bool) (r : Res Expr) : Res Expr :=
  match r with
  | .error e => .error e
  | .ok (e, ctx, w) => .ok (e, { ctx with isUnknownCallableScope := s0 }, w)

/-- The special-form switch of `parseList` and its call fall-through,
entered with the unknown-callable scope flag cleared and the saved value
`s0`.  The `def`, `def-linter__`, `var`, `set-macro__`, `let*`,
`letfn*` and `loop*` forms intern or mutate global vars (or build `let`
frames) and are outside the modeled fragment; no claim depends on them,
and the model reports a labeled goPanic for those heads. -/
def parseListCore (cfg : Config) (p : PFun) (obj : Obj) (elems : List Obj) (s0 : Bool)
    (ctx : ParseContext) : Res Expr :=
  match firstD elems with
  | .sym v =>
    if v.ns = none then
      if v.name = STR_quote then
        pureR (.literal (nth elems 1) false) ctx
      else if v.name = STR_if then
        match checkForm obj elems 3 4 with
        | some e => .error e
        | none =>
          prependW
            (if cfg.linterMode ∧ elems.length < 4 ∧ cfg.ifWithoutElse then
              [printParseWarning "missing else branch"] else [])
            (bindE (p (nth elems 1) ctx) fun ce ctx1 =>
              bindE (p (nth elems 2) ctx1) fun pe ctx2 =>
                bindE (p (nth elems 3) ctx2) fun ne ctx3 =>
                  pureR (.ifE ce pe ne) ctx3)
      else if v.name = STR_fn then parseFn cfg p obj ctx
      else if v.name = STR_let then .error (.goPanic "model: let* is outside the modeled fragment")
      else if v.name = STR_letfn then .error (.goPanic "model: letfn* is outside the modeled fragment")
      else if v.name = STR_loop then .error (.goPanic "model: loop* is outside the modeled fragment")
      else if v.name = STR_recur then parseRecur p obj ctx
      else if v.name = STR_setMacro then .error (.goPanic "model: set-macro__ is outside the modeled fragment")
      else if v.name = STR_def then .error (.goPanic "model: def is outside the modeled fragment")
      else if v.name = STR_defLinter then .error (.goPanic "model: def-linter__ is outside the modeled fragment")
      else if v.name = STR_var then .error (.goPanic "model: var is outside the modeled fragment")
      else if v.name = STR_do then
        bindE (parseBody cfg p elems.tail ctx) fun body ctx2 =>
          .ok (.doE body (isCreatedByMacro cfg elems), ctx2,
            if cfg.linterMode then
              if body.isEmpty then [printParseWarning "do form with empty body"]
              else if body.length = 1 then [printParseWarning "redundant do form"]
              else []
            else [])
      else if v.name = STR_throw then
        bindE (p (nth elems 1) ctx) fun e ctx2 =>
          pureR (.throwE e) ctx2
      else if v.name = STR_try then parseTry cfg p obj ctx
      else parseCall cfg p elems s0 ctx
    else parseCall cfg p elems s0 ctx
  | _ => parseCall cfg p elems s0 ctx

/-- parseList of the source: macro-expand once and re-enter the parse on
a changed result; an empty list is a literal; otherwise save and clear
the unknown-callable scope flag, dispatch on the head, and restore the
flag on exit. -/
def parseList (cfg : Config) (p : PFun) (obj : Obj) (ctx : ParseContext) : Res Expr :=
  match obj with
  | .list elems _ =>
    match macroexpand1 cfg elems obj ctx with
    | .error e => .error e
    | .ok (some expanded) => p expanded ctx
    | .ok none =>
      if elems.isEmpty then pureR (.literal obj false) ctx
      else
        restoreScope ctx.isUnknownCallableScope
          (parseListCore cfg p obj elems ctx.isUnknownCallableScope
            { ctx with isUnknownCallableScope := false })
  | _ => .error (.goPanic "parseList: obj is not a Seq")

/-- isInteropSymbol of the source. -/
def isInteropSymbol (s : Symbol) : Bool :=
  s.ns = none && (s.name.startsWith "." || s.name.endsWith "." || s.name.contains '$')

/-- Decision procedure for Go's regexp `.+\..+\.[A-Z].+` under
MatchString (unanchored; `.` matches any character except newline): some
window has a non-newline character, a dot, one or more non-newline
characters, a dot, an ASCII uppercase letter and a non-newline
character, in that order. -/
def fullClassNameMatch (s : String) : Bool :=
  let c := s.toList
  let n := c.length
  (List.range n).any fun i =>
    (List.range n).any fun j =>
      decide (1 ≤ i) && decide (i + 2 ≤ j) && decide (j + 2 < n) &&
      decide (c.getD i ' ' = '.') && decide (c.getD j ' ' = '.') &&
      decide (c.getD (i - 1) ' ' ≠ '\n') &&
      ((List.range n).all fun k =>
        decide (k ≤ i) || decide (j ≤ k) || decide (c.getD k ' ' ≠ '\n')) &&
      decide ('A' ≤ c.getD (j + 1) ' ') && decide (c.getD (j + 1) ' ' ≤ 'Z') &&
      decide (c.getD (j + 2) ' ' ≠ '\n')

/-- isJavaSymbol of the source: the namespace part (or, unqualified, the
name) matches the full-class-name regexp. -/
def isJavaSymbol (s : Symbol) : Bool :=
  fullClassNameMatch (match s.ns with | some ns => ns | none => s.name)

/-- InternFakeSymbol of the source: a fake var in the apparent namespace,
or in the current namespace under the symbol's printed name.  The
interning write into the environment is outside the model; the returned
var carries the fake flag and no value or expression. -/
def InternFakeSymbol (cfg : Config) (symNs : Option String) (s : Symbol) : GVar :=
  match symNs with
  | some nsName => ⟨some nsName, s.name, false, true, false, false⟩
  | none => ⟨some cfg.currentNs, Symbol.toStr s, false, true, false, false⟩

/-- MakeVarRefExpr of the source (the usage-flag writes on the var and
its namespace mutate the external environment and are outside the
model). -/
def MakeVarRefExpr (vr : GVar) : Expr :=
  .varRef vr

/-- parseSymbol of the source: a local binding is marked used and
returned; otherwise the global environment resolves the symbol to a
VarRef; otherwise an unqualified built-in type name is a type literal;
otherwise strict mode panics "Unable to resolve symbol".  In linter mode
(with the CLJS dialect branch outside the modeled fragment), when the
apparent namespace is absent or the current one: interop-looking and
Java-class-looking symbols become surrogate literals, otherwise an
"Unable to resolve symbol" parse error is printed unless suppressed by
the unknown-callable scope or a linter binding; in all remaining linter
cases a fake var is interned and referenced. -/
def parseSymbol (cfg : Config) (obj : Obj) (ctx : ParseContext) : Res Expr :=
  match obj with
  | .sym s =>
    match ctx.getLocalBinding s with
    | some b =>
      .ok (.bindingE { b with isUsed := true },
        { ctx with localBindings := ctx.localBindings.markUsed s.name }, [])
    | none =>
      match cfg.resolve s.ns s.name with
      | some vr => pureR (MakeVarRefExpr vr) ctx
      | none =>
        if s.ns = none ∧ cfg.types.contains s.name then
          pureR (.literal (.typeObj s.name) false) ctx
        else if !cfg.linterMode then
          .error (.parseErr obj ("Unable to resolve symbol: " ++ Symbol.toStr s))
        else
          let symNs := cfg.namespaceFor s
          if symNs = none ∨ symNs = some cfg.currentNs then
            if isInteropSymbol s || isJavaSymbol s then
              pureR (.literal (.sym s) true) ctx
            else
              .ok (MakeVarRefExpr (InternFakeSymbol cfg symNs s), ctx,
                if !ctx.isUnknownCallableScope ∧
                    ctx.linterBindings.getBinding s = none then
                  [printParseError ("Unable to resolve symbol: " ++ Symbol.toStr s)]
                else [])
          else pureR (MakeVarRefExpr (InternFakeSymbol cfg symNs s)) ctx
  | _ => .error (.goPanic "parseSymbol: obj is not a Symbol")

/-- The dispatch of the source's `Parse`: nil and scalar literals become
LiteralExprs; vectors are parsed elementwise and wrapped in a MetaExpr
when metadata is present; sequences go to `parseList`; symbols to
`parseSymbol`.  The reader's Map and Set variants are outside the
modeled fragment. -/
def parseStep (cfg : Config) (p : PFun) (obj : Obj) (ctx : ParseContext) : Res Expr :=
  match obj with
  | .vec es m =>
    bindE (parseVector p es ctx) fun res ctx2 =>
      match m with
      | [] => pureR res ctx2
      | _ =>
        bindE (parseMetaMap p m ctx2) fun me ctx3 =>
          pureR (.metaE me res) ctx3
  | .list _ _ => parseList cfg p obj ctx
  | .sym _ => parseSymbol cfg obj ctx
  | _ => pureR (.literal obj false) ctx

/-- The source's recursive `Parse`, tied with fuel: each recursive call
consumes one unit, and exhaustion is the distinct `Fail.outOfFuel` (the
source recursion is unbounded through macro expansion). -/
def Parse (cfg : Config) : Nat → PFun
  | 0 => fun _ _ => .error .outOfFuel
  | fuel + 1 => fun obj ctx => parseStep cfg (Parse cfg fuel) obj ctx

/-! ## End-of-analysis whole-program warnings

`WarnOnUnusedNamespaces` and `WarnOnGloballyUnusedVars` iterate Go maps
(`GLOBAL_ENV.Namespaces` and each namespace's `mappings`), whose
iteration order is arbitrary; the model takes the iteration orders as
explicit input lists.  Positions matter here (they are printed), so the
namespace and var records carry them. -/

/-- A source position as printed by printError (filename, start line,
start column). -/
structure Position where
  filename : String
  line : Nat
  col : Nat
deriving DecidableEq, Repr

/-- printError of the source: the stderr line
`file:line:col: message`. -/
def renderDiag (pos : Position) (msg : String) : String :=
  pos.filename ++ ":" ++ toString pos.line ++ ":" ++ toString pos.col ++ ": " ++ msg

/-- isRecordConstructor of the source. -/
def isRecordConstructor (s : Symbol) : Bool :=
  s.ns = none && (s.name.startsWith "->" || s.name.startsWith "map->")

/-- A var as seen by the whole-program warning passes: its home
namespace's name (`vr.ns`), local name, usage and privacy flags, whether
the entry-points set names it, and its position info (`vr.GetInfo()`,
none for nil). -/
structure VarInfo where
  homeNs : Option String
  name : String
  isUsed : Bool
  isGloballyUsed : Bool
  isPrivate : Bool
  entryPoint : Bool
  pos : Option Position
deriving DecidableEq, Repr

/-- A namespace as seen by the whole-program warning passes: name,
identity flags (current namespace, core namespace), usage flags, the
ignored-unused and entry-points memberships, the position info of its
name symbol, and its mappings in iteration order. -/
structure NsInfo where
  name : String
  isCurrent : Bool
  isCore : Bool
  isUsed : Bool
  isGloballyUsed : Bool
  ignored : Bool
  entryPoint : Bool
  pos : Option Position
  mappings : List VarInfo
deriving DecidableEq, Repr

/-- sort.Strings of the source: ascending lexicographic order (equal
strings are identical, so any correct sort yields the same list). -/
def sortStrings (l : List String) : List String :=
  List.insertionSort (fun a b => a ≤ b) l

/-- The `positions[name]` Go map built by successive writes during
collection: the last write wins; a missing key reads the zero
Position. -/
def lookupLast (pairs : List (String × Position)) (n : String) : Position :=
  match (pairs.filter (fun pr => pr.1 = n)).getLast? with
  | some pr => pr.2
  | none => ⟨"", 0, 0⟩

/-- The shared emission shape of the whole-program warning passes: sort
the collected names, then print each with its recorded position. -/
def emitSorted (pairs : List (String × Position)) (msgOf : String → String) : List String :=
  (sortStrings (pairs.map Prod.fst)).map
    (fun n => renderDiag (lookupLast pairs n) (msgOf n))

/-- The collection loop of WarnOnUnusedNamespaces: namespaces other than
the current one, unused, not ignored, with position info whose filename
is neither `<joker.core>` nor `<user>`; collected in iteration order as
(name, position). -/
def collectUnusedNamespaces (nss : List NsInfo) : List (String × Position) :=
  nss.filterMap fun ns =>
    if !ns.isCurrent && !ns.isUsed && !ns.ignored then
      match ns.pos with
      | some p =>
        if p.filename ≠ "<joker.core>" ∧ p.filename ≠ "<user>" then some (ns.name, p)
        else none
      | none => none
    else none

/-- WarnOnUnusedNamespaces of the source. -/
def WarnOnUnusedNamespaces (nss : List NsInfo) : List String :=
  emitSorted (collectUnusedNamespaces nss)
    (fun n => printParseWarning ("unused namespace " ++ n))

/-- Modelled from the spec: Var.Name (defined outside the analyzed file)
prints the var's qualified name, `namespace/name`. -/
def varName (nsName : String) (vr : VarInfo) : String :=
  nsName ++ "/" ++ vr.name

/-- The per-var condition of WarnOnGloballyUnusedVars: the var lives in
the namespace holding the mapping, is not globally used, not private,
not a record constructor, and not an entry point (of its namespace or
individually). -/
def varEligible (ns : NsInfo) (vr : VarInfo) : Bool :=
  vr.homeNs = some ns.name && !vr.isGloballyUsed && !vr.isPrivate &&
    !isRecordConstructor ⟨none, vr.name, none⟩ && !(ns.entryPoint || vr.entryPoint)

/-- The collection loop of WarnOnGloballyUnusedVars: skip the core
namespace; eligible vars with position info, collected in iteration
order as (qualified name, position). -/
def collectGloballyUnusedVars (nss : List NsInfo) : List (String × Position) :=
  (nss.filter (fun ns => !ns.isCore)).flatMap fun ns =>
    ns.mappings.filterMap fun vr =>
      if varEligible ns vr then
        match vr.pos with
        | some p => some (varName ns.name vr, p)
        | none => none
      else none

/-- WarnOnGloballyUnusedVars of the source. -/
def WarnOnGloballyUnusedVars (nss : List NsInfo) : List String :=
  emitSorted (collectGloballyUnusedVars nss)
    (fun n => printParseWarning ("globally unused var " ++ n))

/-! ## Concrete configurations and context for witnesses -/

/-- A strict-mode configuration with an empty global environment, used
by the concrete witnesses. -/
def strictCfg : Config :=
  { linterMode := false, ifWithoutElse := true, fnWithEmptyBody := true,
    unusedFnParameters := true, coreFilename := "<joker.core>", currentNs := "user",
    types := ["Error"], resolve := fun _ _ => none, namespaceFor := fun _ => none,
    knownMacros := [], macroEval := fun o => o }

/-- The linter-mode variant of `strictCfg`. -/
def linterCfg : Config :=
  { strictCfg with linterMode := true }

/-- The linter-mode variant with the if-without-else warning off. -/
def linterCfgNoIfWarn : Config :=
  { linterCfg with ifWithoutElse := false }

/-- The empty parse context (fresh analysis of a top-level form). -/
def ctx0 : ParseContext :=
  { localBindings := [], loopBindings := [], linterBindings := [],
    recur := false, noRecurAllowed := false, isUnknownCallableScope := false }

/-! ## Claims -/

/-- The parseParams loop walks past parameter symbols that are not `&`,
accumulating them. -/
theorem parseParamsLoop_symbols (cfg : Config) (ss : List Symbol) (rest : List Obj)
    (acc : List Symbol) (h : ∀ s ∈ ss, symEq s ampSym = false) :
    parseParamsLoop cfg (ss.map Obj.sym ++ rest) acc = parseParamsLoop cfg rest (acc ++ ss) := by
  induction ss generalizing acc with
  | nil => simp
  | cons s tl ih =>
    have hs : symEq s ampSym = false := h s (by simp)
    have htl : ∀ x ∈ tl, symEq x ampSym = false := fun x hx => h x (by simp [hx])
    simp only [List.map_cons, List.cons_append, parseParamsLoop, checkBindingSym, hs,
      Bool.false_eq_true, if_false]
    rw [List.append_eq, ih (acc ++ [s]) htl]
    simp

/-- C9: for every parameter vector of symbols whose last element is the
`&` symbol with nothing following it, parseParams returns the preceding
symbols as a non-variadic parameter list, silently dropping the trailing
`&`, with no error in either strict or linter mode (the configuration is
arbitrary); with exactly one element after `&` that element becomes the
variadic parameter; and an error is raised exactly when more than one
element follows `&`, a ParseError naming the second element after
`&`. -/
theorem c9_parseParams_trailing_amp :
    (∀ (cfg : Config) (ss : List Symbol) (a : Symbol) (md : List (String × Obj)),
      (∀ s ∈ ss, symEq s ampSym = false) → symEq a ampSym = true →
      parseParams cfg (.vec (ss.map Obj.sym ++ [.sym a]) md) = .ok (ss, false)) ∧
    (∀ (cfg : Config) (ss : List Symbol) (a v : Symbol) (md : List (String × Obj)),
      (∀ s ∈ ss, symEq s ampSym = false) → symEq a ampSym = true →
      parseParams cfg (.vec (ss.map Obj.sym ++ [.sym a, .sym v]) md) =
        .ok (ss ++ [v], true)) ∧
    (∀ (cfg : Config) (ss : List Symbol) (a : Symbol) (x y : Obj) (more : List Obj)
        (md : List (String × Obj)),
      (∀ s ∈ ss, symEq s ampSym = false) → symEq a ampSym = true →
      parseParams cfg (.vec (ss.map Obj.sym ++ .sym a :: x :: y :: more) md) =
        .error (.parseErr y ("Unexpected parameter: " ++ y.toStr))) := by
  refine ⟨?_, ?_, ?_⟩
  · intro cfg ss a md h ha
    simp [parseParams, parseParamsLoop_symbols cfg ss _ [] h, parseParamsLoop,
      checkBindingSym, ha]
  · intro cfg ss a v md h ha
    simp [parseParams, parseParamsLoop_symbols cfg ss _ [] h, parseParamsLoop,
      checkBindingSym, ha]
  · intro cfg ss a x y more md h ha
    simp [parseParams, parseParamsLoop_symbols cfg ss _ [] h, parseParamsLoop,
      checkBindingSym, ha]

/-- C9 witness: concrete instances of the three parts, in both modes for
the trailing-`&` case. -/
theorem c9_parseParams_trailing_amp_witness :
    parseParams strictCfg (.vec [Obj.sym ⟨none, "a", none⟩, .sym ampSym] []) =
      .ok ([⟨none, "a", none⟩], false) ∧
    parseParams linterCfg (.vec [Obj.sym ⟨none, "a", none⟩, .sym ampSym] []) =
      .ok ([⟨none, "a", none⟩], false) ∧
    parseParams strictCfg (.vec [Obj.sym ⟨none, "a", none⟩, .sym ampSym,
        .sym ⟨none, "b", none⟩, .sym ⟨none, "c", none⟩] []) =
      .error (.parseErr (.sym ⟨none, "c", none⟩)
        ("Unexpected parameter: " ++ (Obj.sym ⟨none, "c", none⟩).toStr)) := by
  refine ⟨?_, ?_, ?_⟩
  · exact c9_parseParams_trailing_amp.1 strictCfg [⟨none, "a", none⟩] ampSym []
      (by decide) (by decide)
  · exact c9_parseParams_trailing_amp.1 linterCfg [⟨none, "a", none⟩] ampSym []
      (by decide) (by decide)
  · exact c9_parseParams_trailing_amp.2.2 strictCfg [⟨none, "a", none⟩] ampSym
      (.sym ⟨none, "b", none⟩) (.sym ⟨none, "c", none⟩) [] []
      (by decide) (by decide)

/-- C2: for every `(recur args*)` form, parseRecur raises a ParseError
"Cannot recur across try" when the no-recur-allowed flag is set;
otherwise a ParseError "No recursion point for recur" when the
loop-bindings stack is empty; otherwise, with the arguments parsed, a
ParseError on an argument-count mismatch against the innermost
loop-bindings entry; otherwise it returns the RecurExpr with the parsed
arguments and sets the recur flag. -/
theorem c2_parseRecur_contract (p : PFun) (obj : Obj) (ctx : ParseContext) :
    (ctx.noRecurAllowed = true →
      parseRecur p obj ctx = .error (.parseErr obj "Cannot recur across try")) ∧
    (ctx.noRecurAllowed = false → ctx.loopBindings = [] →
      parseRecur p obj ctx = .error (.parseErr obj "No recursion point for recur")) ∧
    (∀ (lb : List Symbol) (lbs : List (List Symbol)) (elems : List Obj)
        (md : List (String × Obj)) (args : List Expr) (ctx2 : ParseContext) (w : List String),
      ctx.noRecurAllowed = false → ctx.loopBindings = lb :: lbs →
      obj = .list elems md →
      parseSeq p elems.tail ctx = .ok (args, ctx2, w) →
      (lb.length ≠ args.length →
        parseRecur p obj ctx = .error (.parseErr obj
          ("Mismatched argument count to recur, expected: " ++ toString lb.length ++
            " args, got: " ++ toString args.length))) ∧
      (lb.length = args.length →
        parseRecur p obj ctx = .ok (.recurE args, { ctx2 with recur := true }, w))) := by
  refine ⟨?_, ?_, ?_⟩
  · intro h
    simp [parseRecur, h]
  · intro h hl
    simp [parseRecur, h, ParseContext.getLoopBindings, hl]
  · intro lb lbs elems md args ctx2 w h hl hobj hseq
    subst hobj
    constructor
    · intro hne
      simp [parseRecur, h, ParseContext.getLoopBindings, hl, bindE, hseq, hne]
    · intro heq
      simp [parseRecur, h, ParseContext.getLoopBindings, hl, bindE, hseq, heq]

/-- C2 witness: the four outcomes at concrete recur forms. -/
theorem c2_parseRecur_contract_witness :
    parseRecur (Parse strictCfg 5) (.list [.sym ⟨none, "recur", none⟩] [])
        { ctx0 with noRecurAllowed := true } =
      .error (.parseErr (.list [.sym ⟨none, "recur", none⟩] []) "Cannot recur across try") ∧
    parseRecur (Parse strictCfg 5) (.list [.sym ⟨none, "recur", none⟩] []) ctx0 =
      .error (.parseErr (.list [.sym ⟨none, "recur", none⟩] []) "No recursion point for recur") ∧
    parseRecur (Parse strictCfg 5) (.list [.sym ⟨none, "recur", none⟩, .int 1, .int 2] [])
        { ctx0 with loopBindings := [[⟨none, "n", none⟩]] } =
      .error (.parseErr (.list [.sym ⟨none, "recur", none⟩, .int 1, .int 2] [])
        ("Mismatched argument count to recur, expected: " ++ toString (1 : Nat) ++
          " args, got: " ++ toString (2 : Nat))) ∧
    parseRecur (Parse strictCfg 5) (.list [.sym ⟨none, "recur", none⟩, .int 1] [])
        { ctx0 with loopBindings := [[⟨none, "n", none⟩]] } =
      .ok (.recurE [.literal (.int 1) false],
        { ctx0 with loopBindings := [[⟨none, "n", none⟩]], recur := true }, []) := by
  refine ⟨?_, ?_, ?_, ?_⟩
  · exact (c2_parseRecur_contract (Parse strictCfg 5) _ _).1 rfl
  · exact (c2_parseRecur_contract (Parse strictCfg 5) _ _).2.1 rfl rfl
  · exact ((c2_parseRecur_contract (Parse strictCfg 5) _ _).2.2 [⟨none, "n", none⟩] []
      [.sym ⟨none, "recur", none⟩, .int 1, .int 2] []
      [.literal (.int 1) false, .literal (.int 2) false]
      { ctx0 with loopBindings := [[⟨none, "n", none⟩]] } [] rfl rfl rfl (by rfl)).1
      (by decide)
  · exact ((c2_parseRecur_contract (Parse strictCfg 5) _ _).2.2 [⟨none, "n", none⟩] []
      [.sym ⟨none, "recur", none⟩, .int 1] [] [.literal (.int 1) false]
      { ctx0 with loopBindings := [[⟨none, "n", none⟩]] } [] rfl rfl rfl (by rfl)).2
      (by decide)

/-- C3: when the shared body parser has parsed an expression that left
the recur flag set and more expressions follow in the same body, strict
mode raises the ParseError "Can only recur from tail position", and in
linter mode the error is suppressed and the loop continues with the rest
of the body (appending the per-expression linter checks and the tail's
results). -/
theorem c3_parseBody_recur_tail_position (cfg : Config) (p : PFun) (ro : Obj)
    (rest : List Obj) (ctx : ParseContext) (e : Expr) (ctx2 : ParseContext)
    (w : List String)
    (hp : p ro ctx = .ok (e, ctx2, w)) (hr : ctx2.recur = true) (hne : rest ≠ []) :
    (cfg.linterMode = false →
      parseBodyLoop cfg p (ro :: rest) ctx =
        .error (.parseErr ro "Can only recur from tail position")) ∧
    (cfg.linterMode = true →
      parseBodyLoop cfg p (ro :: rest) ctx =
        match parseBodyLoop cfg p rest ctx2 with
        | .error e2 => .error e2
        | .ok (es, ctx3, w2) => .ok (e :: es, ctx3, w ++ (bodyLinterChecks cfg e ro ++ w2))) := by
  cases rest with
  | nil => exact absurd rfl hne
  | cons b bs =>
    constructor
    · intro hl
      simp [parseBodyLoop, hp, hr, hl]
    · intro hl
      simp [parseBodyLoop, hp, hr, hl]

/-- C3 witness: a recur followed by one more body expression, rejected
in strict mode and parsed through in linter mode. -/
theorem c3_parseBody_recur_tail_position_witness :
    parseBodyLoop strictCfg (Parse strictCfg 5)
        [.list [.sym ⟨none, "recur", none⟩] [], .int 1]
        { ctx0 with loopBindings := [[]] } =
      .error (.parseErr (.list [.sym ⟨none, "recur", none⟩] [])
        "Can only recur from tail position") ∧
    parseBodyLoop linterCfg (Parse linterCfg 5)
        [.list [.sym ⟨none, "recur", none⟩] [], .int 1]
        { ctx0 with loopBindings := [[]] } =
      .ok ([.recurE [], .literal (.int 1) false],
        { ctx0 with loopBindings := [[]], recur := true }, []) := by
  constructor
  · exact (c3_parseBody_recur_tail_position strictCfg (Parse strictCfg 5)
      (.list [.sym ⟨none, "recur", none⟩] []) [.int 1]
      { ctx0 with loopBindings := [[]] } (.recurE [])
      { ctx0 with loopBindings := [[]], recur := true } []
      (by rfl) rfl (by simp)).1 rfl
  · exact ((c3_parseBody_recur_tail_position linterCfg (Parse linterCfg 5)
      (.list [.sym ⟨none, "recur", none⟩] []) [.int 1]
      { ctx0 with loopBindings := [[]] } (.recurE [])
      { ctx0 with loopBindings := [[]], recur := true } []
      (by rfl) rfl (by simp)).2 rfl).trans (by rfl)

/-- C10: a namespace-qualified symbol is never resolved to a local
binding: GetLocalBinding returns none for it whatever the scope stack
holds; when the global environment resolves it, parseSymbol returns that
VarRef even when a local binding with the same local name is in scope;
and no successful parseSymbol result for it is a BindingExpr. -/
theorem c10_qualified_symbol_not_local (cfg : Config) (s : Symbol) (ns0 : String)
    (hns : s.ns = some ns0) :
    (∀ ctx : ParseContext, ctx.getLocalBinding s = none) ∧
    (∀ (ctx : ParseContext) (vr : GVar), cfg.resolve s.ns s.name = some vr →
      parseSymbol cfg (.sym s) ctx = .ok (.varRef vr, ctx, [])) ∧
    (∀ (ctx : ParseContext) (e : Expr) (ctx2 : ParseContext) (w : List String),
      parseSymbol cfg (.sym s) ctx = .ok (e, ctx2, w) → ∀ b : Binding, e ≠ .bindingE b) := by
  have hloc : ∀ ctx : ParseContext, ctx.getLocalBinding s = none := by
    intro ctx
    simp [ParseContext.getLocalBinding, hns]
  refine ⟨hloc, ?_, ?_⟩
  · intro ctx vr hvr
    simp [parseSymbol, hloc ctx, hvr, MakeVarRefExpr, pureR]
  · intro ctx e ctx2 w hok b
    rw [parseSymbol] at hok
    rw [hloc ctx] at hok
    cases hres : cfg.resolve s.ns s.name with
    | some vr =>
      rw [hres] at hok
      simp [pureR, MakeVarRefExpr] at hok
      simp [← hok.1]
    | none =>
      rw [hres] at hok
      have hty : ¬(s.ns = none ∧ cfg.types.contains s.name) := by
        intro hc
        rw [hns] at hc
        exact Option.noConfusion hc.1
      rw [if_neg hty] at hok
      by_cases hl : cfg.linterMode
      · rw [if_neg (by simp [hl])] at hok
        by_cases hcur : cfg.namespaceFor s = none ∨ cfg.namespaceFor s = some cfg.currentNs
        · rw [if_pos hcur] at hok
          by_cases hint : isInteropSymbol s || isJavaSymbol s
          · rw [if_pos hint] at hok
            simp [pureR] at hok
            simp [← hok.1]
          · rw [if_neg hint] at hok
            simp [MakeVarRefExpr] at hok
            simp [← hok.1]
        · rw [if_neg hcur] at hok
          simp [pureR, MakeVarRefExpr] at hok
          simp [← hok.1]
      · rw [if_pos (by simp [hl])] at hok
        exact Except.noConfusion hok

/-- C10 witness: a qualified symbol with a same-named local binding in
scope resolves through the global environment, never to the local
binding. -/
theorem c10_qualified_symbol_not_local_witness :
    (ParseContext.getLocalBinding
        { ctx0 with localBindings := [[("x", ⟨⟨none, "x", none⟩, 0, 0, false, none⟩)]] }
        ⟨some "ns1", "x", none⟩ = none) ∧
    parseSymbol
        { strictCfg with
          resolve := fun ns n =>
            if ns = some "ns1" ∧ n = "x" then
              some ⟨some "ns1", "x", false, false, true, false⟩
            else none }
        (.sym ⟨some "ns1", "x", none⟩)
        { ctx0 with localBindings := [[("x", ⟨⟨none, "x", none⟩, 0, 0, false, none⟩)]] } =
      .ok (.varRef ⟨some "ns1", "x", false, false, true, false⟩,
        { ctx0 with localBindings := [[("x", ⟨⟨none, "x", none⟩, 0, 0, false, none⟩)]] },
        []) ∧
    (Expr.varRef ⟨some "ns1", "x", false, false, true, false⟩ ≠
      .bindingE ⟨⟨none, "x", none⟩, 0, 0, false, none⟩) := by
  refine ⟨?_, ?_, ?_⟩
  · exact (c10_qualified_symbol_not_local strictCfg ⟨some "ns1", "x", none⟩ "ns1" rfl).1 _
  · exact (c10_qualified_symbol_not_local
      { strictCfg with
        resolve := fun ns n =>
          if ns = some "ns1" ∧ n = "x" then
            some ⟨some "ns1", "x", false, false, true, false⟩
          else none }
      ⟨some "ns1", "x", none⟩ "ns1" rfl).2.1 _ _ (by rfl)
  · exact (c10_qualified_symbol_not_local
      { strictCfg with
        resolve := fun ns n =>
          if ns = some "ns1" ∧ n = "x" then
            some ⟨some "ns1", "x", false, false, true, false⟩
          else none }
      ⟨some "ns1", "x", none⟩ "ns1" rfl).2.2
      { ctx0 with localBindings := [[("x", ⟨⟨none, "x", none⟩, 0, 0, false, none⟩)]] }
      (.varRef ⟨some "ns1", "x", false, false, true, false⟩)
      { ctx0 with localBindings := [[("x", ⟨⟨none, "x", none⟩, 0, 0, false, none⟩)]] }
      [] (by rfl) ⟨⟨none, "x", none⟩, 0, 0, false, none⟩

/-- Overwriting the unknown-callable scope flag with its own value is the
identity (structure eta). -/
theorem ctx_set_scope_self (ctx : ParseContext) :
    { ctx with isUnknownCallableScope := ctx.isUnknownCallableScope } = ctx := rfl

/-- C6 counterexample: the three-element form `(quote 1 2)` parses
successfully (to `Literal(1)`, with no diagnostics), so a quote form with
other than two elements does not fail: the quote case performs no arity
check. -/
theorem c6_quote_counterexample :
    Parse strictCfg 5 (.list [.sym ⟨none, "quote", none⟩, .int 1, .int 2] []) ctx0 =
      .ok (.literal (.int 1) false, ctx0, []) := rfl

/-- C6 amended: for every quote form, parsing returns `Literal(x)` where
`x` is the second element (NIL when the form has fewer than two
elements), without recursing into `x`, with no diagnostics, no context
change, and no arity check: any element count succeeds.  The theorem
holds with one unit of fuel (`n` arbitrary, including 0 for the
children), which witnesses that `x` is not recursed into. -/
theorem c6_quote_amended (cfg : Config) (n : Nat) (v : Symbol) (rest : List Obj)
    (md : List (String × Obj)) (ctx : ParseContext)
    (hv : v.ns = none) (hn : v.name = STR_quote)
    (hm : resolveMacro cfg ctx (.sym v) = .ok none) :
    Parse cfg (n + 1) (.list (.sym v :: rest) md) ctx =
      .ok (.literal (nth (.sym v :: rest) 1) false, ctx, []) := by
  show parseStep cfg (Parse cfg n) (.list (.sym v :: rest) md) ctx = _
  simp [parseStep, parseList, macroexpand1, firstD, hm, parseListCore, hv, hn,
    STR_quote, STR_if, STR_fn, STR_let, STR_letfn, STR_loop, STR_recur, STR_setMacro, STR_def, STR_defLinter, STR_var, STR_do, STR_throw, STR_try,
    restoreScope, pureR, ctx_set_scope_self]

/-- C6 amended witness: `(quote 7)` with zero fuel left for children
still parses to the unrecursed literal. -/
theorem c6_quote_amended_witness :
    Parse strictCfg 1 (.list [.sym ⟨none, "quote", none⟩, .int 7] []) ctx0 =
      .ok (.literal (nth [.sym ⟨none, "quote", none⟩, .int 7] 1) false, ctx0, []) :=
  c6_quote_amended strictCfg 0 ⟨none, "quote", none⟩ [.int 7] [] ctx0 rfl rfl (by rfl)

/-- C7 counterexample: in linter mode, `(do 1)` whose head carries the
core filename parses with `isCreatedByMacro = true` and still emits the
"redundant do form" warning, so the flag does not suppress the do
parser's single-expression warning. -/
theorem c7_do_counterexample :
    Parse linterCfg 5 (.list [.sym ⟨none, "do", some "<joker.core>"⟩, .int 1] []) ctx0 =
      .ok (.doE [.literal (.int 1) false] true, ctx0,
        [printParseWarning "redundant do form"]) := rfl

/-- C7 amended: in linter mode, parsing a do form whose parsed body has
exactly one expression emits the "redundant do form" warning regardless
of the form's isCreatedByMacro flag, and an empty body emits the
empty-body warning; the flag is recorded on the DoExpr, and what it
suppresses is only the additional "redundant do form" warning that the
surrounding body parser would emit for a parsed DoExpr (second
conjunct). -/
theorem c7_do_amended (cfg : Config) (n : Nat) (v : Symbol) (rest : List Obj)
    (md : List (String × Obj)) (ctx : ParseContext) (es : List Expr)
    (ctx2 : ParseContext) (w : List String)
    (hv : v.ns = none) (hn : v.name = STR_do)
    (hm : resolveMacro cfg ctx (.sym v) = .ok none)
    (hbody : parseBody cfg (Parse cfg (n + 1)) rest
      { ctx with isUnknownCallableScope := false } = .ok (es, ctx2, w)) :
    (Parse cfg (n + 2) (.list (.sym v :: rest) md) ctx =
      .ok (.doE es (isCreatedByMacro cfg (.sym v :: rest)),
        { ctx2 with isUnknownCallableScope := ctx.isUnknownCallableScope },
        w ++ (if cfg.linterMode then
          (if es.isEmpty then [printParseWarning "do form with empty body"]
            else if es.length = 1 then [printParseWarning "redundant do form"]
            else [])
          else []))) ∧
    (∀ (body : List Expr) (ro : Obj), bodyLinterChecks cfg (.doE body true) ro = []) := by
  constructor
  · show parseStep cfg (Parse cfg (n + 1)) (.list (.sym v :: rest) md) ctx = _
    simp [parseStep, parseList, macroexpand1, firstD, hm, parseListCore, hv, hn,
      STR_quote, STR_if, STR_fn, STR_let, STR_letfn, STR_loop, STR_recur, STR_setMacro, STR_def, STR_defLinter, STR_var, STR_do, STR_throw, STR_try,
      restoreScope, bindE, hbody]
  · intro body ro
    simp [bodyLinterChecks]

/-- C7 amended witness: `(do 1)` with the core filename on the head, in
linter mode: the DoExpr carries the flag true and the warning is
emitted; and the body-parser check for a macro-created DoExpr is
empty. -/
theorem c7_do_amended_witness :
    (Parse linterCfg 2 (.list [.sym ⟨none, "do", some "<joker.core>"⟩, .int 1] []) ctx0 =
      .ok (.doE [.literal (.int 1) false] true, ctx0,
        [printParseWarning "redundant do form"])) ∧
    bodyLinterChecks linterCfg (.doE [.literal (.int 1) false] true) (.int 1) = [] := by
  have h := c7_do_amended linterCfg 0 ⟨none, "do", some "<joker.core>"⟩ [.int 1] [] ctx0
    [.literal (.int 1) false] { ctx0 with isUnknownCallableScope := false } []
    rfl rfl (by rfl) (by rfl)
  exact ⟨h.1.trans (by rfl), h.2 [.literal (.int 1) false] (.int 1)⟩

/-- Parsing NIL is the nil literal, for any positive fuel. -/
theorem parse_nil (cfg : Config) (n : Nat) (ctx : ParseContext) :
    Parse cfg (n + 1) Obj.nil ctx = .ok (.literal Obj.nil false, ctx, []) := rfl

/-- C5: a three-element `(if c p)` form produces an IfExpr whose
negative branch is the nil literal, and the if parser emits the
"missing else branch" warning exactly when linter mode is on and the
if-without-else toggle is enabled (the appended `wc`/`wp` are the
children's own diagnostics); an if form with fewer than 3 or more than 4
elements raises a ParseError. -/
theorem c5_if_contract (cfg : Config) (n : Nat) (v : Symbol)
    (md : List (String × Obj)) (ctx : ParseContext)
    (hv : v.ns = none) (hn : v.name = STR_if)
    (hm : resolveMacro cfg ctx (.sym v) = .ok none) :
    (∀ (c pos : Obj) (ce pe : Expr) (ctx1 ctx2 : ParseContext) (wc wp : List String),
      Parse cfg (n + 1) c { ctx with isUnknownCallableScope := false } = .ok (ce, ctx1, wc) →
      Parse cfg (n + 1) pos ctx1 = .ok (pe, ctx2, wp) →
      Parse cfg (n + 2) (.list [.sym v, c, pos] md) ctx =
        .ok (.ifE ce pe (.literal Obj.nil false),
          { ctx2 with isUnknownCallableScope := ctx.isUnknownCallableScope },
          (if cfg.linterMode ∧ cfg.ifWithoutElse then
            [printParseWarning "missing else branch"] else []) ++ (wc ++ wp))) ∧
    (∀ elems : List Obj, firstD elems = .sym v → elems.length < 3 →
      Parse cfg (n + 2) (.list elems md) ctx =
        .error (.parseErr (.list elems md) ("Too few arguments to " ++ Symbol.toStr v))) ∧
    (∀ elems : List Obj, firstD elems = .sym v → elems.length > 4 →
      Parse cfg (n + 2) (.list elems md) ctx =
        .error (.parseErr (.list elems md) ("Too many arguments to " ++ Symbol.toStr v))) := by
  refine ⟨?_, ?_, ?_⟩
  · intro c pos ce pe ctx1 ctx2 wc wp hc hp
    show parseStep cfg (Parse cfg (n + 1)) (.list [.sym v, c, pos] md) ctx = _
    simp [parseStep, parseList, macroexpand1, firstD, hm, parseListCore, hv, hn,
      STR_quote, STR_if, checkForm, nth, restoreScope, prependW, bindE, pureR,
      hc, hp, parse_nil, Obj.toStr]
  · intro elems hhd hlen
    have hne : elems ≠ [] := by
      intro he
      rw [he] at hhd
      exact Obj.noConfusion hhd
    show parseStep cfg (Parse cfg (n + 1)) (.list elems md) ctx = _
    rw [parseStep, parseList, macroexpand1, hhd, hm]
    have hemp : elems.isEmpty = false := by
      cases elems with
      | nil => exact absurd rfl hne
      | cons a l => rfl
    simp only [hemp, Bool.false_eq_true, if_false]
    rw [parseListCore, hhd]
    simp [hv, hn, STR_quote, STR_if, checkForm, hlen, hhd, restoreScope, Obj.toStr]
  · intro elems hhd hlen
    have hne : elems ≠ [] := by
      intro he
      rw [he] at hhd
      exact Obj.noConfusion hhd
    show parseStep cfg (Parse cfg (n + 1)) (.list elems md) ctx = _
    rw [parseStep, parseList, macroexpand1, hhd, hm]
    have hemp : elems.isEmpty = false := by
      cases elems with
      | nil => exact absurd rfl hne
      | cons a l => rfl
    simp only [hemp, Bool.false_eq_true, if_false]
    rw [parseListCore, hhd]
    have hnotlt : ¬elems.length < 3 := by omega
    simp [hv, hn, STR_quote, STR_if, checkForm, hnotlt, hlen, hhd, restoreScope, Obj.toStr]

/-- C5 witness: `(if true 1)` with the warning toggle on, with it off,
and in strict mode; `(if true)` and a five-element if. -/
theorem c5_if_contract_witness :
    Parse linterCfg 2 (.list [.sym ⟨none, "if", none⟩, .bool true, .int 1] []) ctx0 =
      .ok (.ifE (.literal (.bool true) false) (.literal (.int 1) false)
          (.literal Obj.nil false), ctx0, [printParseWarning "missing else branch"]) ∧
    Parse linterCfgNoIfWarn 2 (.list [.sym ⟨none, "if", none⟩, .bool true, .int 1] []) ctx0 =
      .ok (.ifE (.literal (.bool true) false) (.literal (.int 1) false)
          (.literal Obj.nil false), ctx0, []) ∧
    Parse strictCfg 2 (.list [.sym ⟨none, "if", none⟩, .bool true] []) ctx0 =
      .error (.parseErr (.list [.sym ⟨none, "if", none⟩, .bool true] [])
        ("Too few arguments to " ++ Symbol.toStr ⟨none, "if", none⟩)) ∧
    Parse strictCfg 2
        (.list [.sym ⟨none, "if", none⟩, .int 1, .int 2, .int 3, .int 4] []) ctx0 =
      .error (.parseErr (.list [.sym ⟨none, "if", none⟩, .int 1, .int 2, .int 3, .int 4] [])
        ("Too many arguments to " ++ Symbol.toStr ⟨none, "if", none⟩)) := by
  refine ⟨?_, ?_, ?_, ?_⟩
  · exact (((c5_if_contract linterCfg 0 ⟨none, "if", none⟩ [] ctx0 rfl rfl (by rfl)).1
      (.bool true) (.int 1) (.literal (.bool true) false) (.literal (.int 1) false)
      ctx0 ctx0 [] [] (by rfl) (by rfl))).trans (by rfl)
  · exact (((c5_if_contract linterCfgNoIfWarn 0 ⟨none, "if", none⟩ [] ctx0 rfl rfl (by rfl)).1
      (.bool true) (.int 1) (.literal (.bool true) false) (.literal (.int 1) false)
      ctx0 ctx0 [] [] (by rfl) (by rfl))).trans (by rfl)
  · exact (c5_if_contract strictCfg 0 ⟨none, "if", none⟩ [] ctx0 rfl rfl (by rfl)).2.1
      [.sym ⟨none, "if", none⟩, .bool true] rfl (by simp)
  · exact (c5_if_contract strictCfg 0 ⟨none, "if", none⟩ [] ctx0 rfl rfl (by rfl)).2.2
      [.sym ⟨none, "if", none⟩, .int 1, .int 2, .int 3, .int 4] rfl (by simp)

/-- Inversion of a successful `bindE`. -/
theorem bindE_ok_inv {α β : Type} (x : Res α) (f : α → ParseContext → Res β) (b : β)
    (ctx2 : ParseContext) (w : List String)
    (h : bindE x f = .ok (b, ctx2, w)) :
    ∃ a ctx1 w1 w2, x = .ok (a, ctx1, w1) ∧ f a ctx1 = .ok (b, ctx2, w2) ∧ w = w1 ++ w2 := by
  cases x with
  | error e => simp [bindE] at h
  | ok t =>
    obtain ⟨a, ctx1, w1⟩ := t
    cases hf : f a ctx1 with
    | error e => simp [bindE, hf] at h
    | ok t2 =>
      obtain ⟨b2, ctxb, w2⟩ := t2
      simp only [bindE, hf] at h
      have hinj := Except.ok.inj h
      have hb : b2 = b := congrArg (fun t => t.1) hinj
      have hc : ctxb = ctx2 := congrArg (fun t => t.2.1) hinj
      have hw : w1 ++ w2 = w := congrArg (fun t => t.2.2) hinj
      exact ⟨a, ctx1, w1, w2, rfl, by rw [hf, hb, hc], hw.symm⟩

/-- Structure of a successful run of the `parseTry` classification loop:
the children split into a regular prefix, then catches, then at most one
finally clause, with the accumulated body/catch counts matching; entered
in the Catch state the regular prefix is empty. -/
theorem parseTryLoop_shape (cfg : Config) (p : PFun) :
    ∀ (elems : List Obj) (lastType : TryClauseKind) (acc : TryAcc) (ctx : ParseContext)
      (acc2 : TryAcc) (ctx2 : ParseContext) (w : List String),
      parseTryLoop cfg p elems lastType acc ctx = .ok (acc2, ctx2, w) →
      lastType ≠ TryClauseKind.Finally →
      ∃ bs cs fs : List Obj,
        elems = bs ++ cs ++ fs ∧
        (∀ b ∈ bs, isCatch b = false ∧ isFinally b = false) ∧
        (lastType = TryClauseKind.Catch → bs = []) ∧
        (∀ c ∈ cs, isCatch c = true) ∧
        ((fs = [] ∧ acc2.finallyExpr = acc.finallyExpr) ∨
          (∃ f, fs = [f] ∧ isFinally f = true ∧ acc2.finallyExpr.isSome = true)) ∧
        acc2.body.length = acc.body.length + bs.length ∧
        acc2.catches.length = acc.catches.length + cs.length := by
  intro elems
  induction elems with
  | nil =>
    intro lastType acc ctx acc2 ctx2 w hok _
    simp only [parseTryLoop, pureR] at hok
    have h := Except.ok.inj hok
    have hacc : acc = acc2 := congrArg (fun t => t.1) h
    refine ⟨[], [], [], by simp, by simp, fun _ => rfl, by simp,
      Or.inl ⟨rfl, by rw [← hacc]⟩, by rw [← hacc]; simp, by rw [← hacc]; simp⟩
  | cons x rest ih =>
    intro lastType acc ctx acc2 ctx2 w hok hlt
    rw [parseTryLoop] at hok
    rw [if_neg hlt] at hok
    by_cases hcx : isCatch x = true
    · rw [if_pos hcx] at hok
      obtain ⟨c, ctxc, w1, w2, hcatch, hloop, hw⟩ := bindE_ok_inv _ _ _ _ _ hok
      obtain ⟨bs', cs', fs', hsplit, hbs', hcatchnil, hcs', hfs', hblen, hclen⟩ :=
        ih _ _ _ _ _ _ hloop (by simp)
      have hbs'nil : bs' = [] := hcatchnil rfl
      subst hbs'nil
      refine ⟨[], x :: cs', fs', by simp [hsplit], by simp, fun _ => rfl, ?_, ?_, ?_, ?_⟩
      · intro cc hcc
        rcases List.mem_cons.mp hcc with h1 | h2
        · rw [h1]; exact hcx
        · exact hcs' cc h2
      · exact hfs'
      · simpa using hblen
      · simp at hclen ⊢
        omega
    · rw [if_neg hcx] at hok
      by_cases hfx : isFinally x = true
      · rw [if_pos hfx] at hok
        obtain ⟨f0, ctxf, w1, w2, hfin, hloop, hw⟩ := bindE_ok_inv _ _ _ _ _ hok
        cases rest with
        | cons y ys => simp [parseTryLoop] at hloop
        | nil =>
          simp only [parseTryLoop, pureR] at hloop
          have h := Except.ok.inj hloop
          have hacc : ({ acc with finallyExpr := some f0 } : TryAcc) = acc2 :=
            congrArg (fun t => t.1) h
          refine ⟨[], [], [x], by simp, by simp, fun _ => rfl, by simp, ?_, ?_, ?_⟩
          · exact Or.inr ⟨x, rfl, hfx, by rw [← hacc]; rfl⟩
          · rw [← hacc]; simp
          · rw [← hacc]; simp
      · rw [if_neg hfx] at hok
        have hnc : lastType ≠ TryClauseKind.Catch := by
          intro h
          rw [if_pos h] at hok
          exact Except.noConfusion hok
        rw [if_neg hnc] at hok
        obtain ⟨e, ctxe, w1, w2, hpe, hloop, hw⟩ := bindE_ok_inv _ _ _ _ _ hok
        obtain ⟨bs', cs', fs', hsplit, hbs', _, hcs', hfs', hblen, hclen⟩ :=
          ih _ _ _ _ _ _ hloop hlt
        refine ⟨x :: bs', cs', fs', by simp [hsplit], ?_, ?_, hcs', hfs', ?_, ?_⟩
        · intro b hb
          rcases List.mem_cons.mp hb with h1 | h2
          · rw [h1]
            exact ⟨by simpa using hcx, by simpa using hfx⟩
          · exact hbs' b h2
        · intro h
          exact absurd h hnc
        · simp at hblen ⊢
          omega
        · simpa using hclen

/-- C4: in a try form the children are classified in order; any child
after a finally clause raises a ParseError, anything other than a catch
or finally clause directly after a catch clause raises a ParseError,
and a successful parse yields a TryExpr whose children decompose as
regular body expressions, then catch clauses, then at most one terminal
finally clause, with body and catch counts matching. -/
theorem c4_try_ordering (cfg : Config) (p : PFun) :
    (∀ (x : Obj) (rest : List Obj) (acc : TryAcc) (ctx : ParseContext),
      parseTryLoop cfg p (x :: rest) TryClauseKind.Finally acc ctx =
        .error (.parseErr x "finally clause must be last in try expression")) ∧
    (∀ (x : Obj) (rest : List Obj) (acc : TryAcc) (ctx : ParseContext),
      isCatch x = false → isFinally x = false →
      parseTryLoop cfg p (x :: rest) TryClauseKind.Catch acc ctx =
        .error (.parseErr x "Only catch or finally clause can follow catch in try expression")) ∧
    (∀ (elems : List Obj) (md : List (String × Obj)) (ctx : ParseContext)
        (body : List Expr) (catches : List (String × Symbol × List Expr))
        (fin : Option (List Expr)) (ctx2 : ParseContext) (w : List String),
      parseTry cfg p (.list elems md) ctx = .ok (.tryE body catches fin, ctx2, w) →
      ∃ bs cs fs : List Obj,
        elems.tail = bs ++ cs ++ fs ∧
        (∀ b ∈ bs, isCatch b = false ∧ isFinally b = false) ∧
        (∀ c ∈ cs, isCatch c = true) ∧
        ((fs = [] ∧ fin = none) ∨ (∃ f, fs = [f] ∧ isFinally f = true ∧ fin.isSome = true)) ∧
        body.length = bs.length ∧ catches.length = cs.length) := by
  refine ⟨?_, ?_, ?_⟩
  · intro x rest acc ctx
    simp [parseTryLoop]
  · intro x rest acc ctx hcx hfx
    simp [parseTryLoop, hcx, hfx]
  · intro elems md ctx body catches fin ctx2 w hok
    rw [parseTry] at hok
    obtain ⟨acc, ctxm, w1, w2, hloop, hout, hw⟩ := bindE_ok_inv _ _ _ _ _ hok
    simp only [Except.ok.injEq, Prod.mk.injEq, Expr.tryE.injEq] at hout
    obtain ⟨⟨hbody, hcatches, hfin⟩, _, _⟩ := hout
    obtain ⟨bs, cs, fs, hsplit, hbs, _, hcs, hfs, hblen, hclen⟩ :=
      parseTryLoop_shape cfg p _ _ _ _ _ _ _ hloop (by simp)
    refine ⟨bs, cs, fs, hsplit, hbs, hcs, ?_, ?_, ?_⟩
    · rcases hfs with ⟨h1, h2⟩ | ⟨f, h1, h2, h3⟩
      · exact Or.inl ⟨h1, by rw [← hfin, h2]⟩
      · exact Or.inr ⟨f, h1, h2, by rw [← hfin]; exact h3⟩
    · rw [← hbody]
      simpa using hblen
    · rw [← hcatches]
      simpa using hclen

/-- C4 witness: a child after finally, a regular child after catch, and
a well-ordered `(try 1 (catch Error e 2) (finally 3))`. -/
theorem c4_try_ordering_witness :
    parseTryLoop strictCfg (Parse strictCfg 5) [.int 2] TryClauseKind.Finally
        ⟨[], [], none⟩ ctx0 =
      .error (.parseErr (.int 2) "finally clause must be last in try expression") ∧
    parseTryLoop strictCfg (Parse strictCfg 5) [.int 2] TryClauseKind.Catch
        ⟨[], [], none⟩ ctx0 =
      .error (.parseErr (.int 2)
        "Only catch or finally clause can follow catch in try expression") ∧
    (∃ bs cs fs : List Obj,
      ([Obj.int 1,
        .list [.sym ⟨none, "catch", none⟩, .sym ⟨none, "Error", none⟩,
          .sym ⟨none, "e", none⟩, .int 2] [],
        .list [.sym ⟨none, "finally", none⟩, .int 3] []] : List Obj) = bs ++ cs ++ fs ∧
      (∀ b ∈ bs, isCatch b = false ∧ isFinally b = false) ∧
      (∀ c ∈ cs, isCatch c = true) ∧
      ((fs = [] ∧ (some [Expr.literal (.int 3) false] : Option (List Expr)) = none) ∨
        (∃ f, fs = [f] ∧ isFinally f = true ∧
          (some [Expr.literal (.int 3) false] : Option (List Expr)).isSome = true)) ∧
      ([Expr.literal (.int 1) false] : List Expr).length = bs.length ∧
      ([("Error", (⟨none, "e", none⟩ : Symbol),
          [Expr.literal (.int 2) false])] : List (String × Symbol × List Expr)).length =
        cs.length) := by
  refine ⟨?_, ?_, ?_⟩
  · exact (c4_try_ordering strictCfg (Parse strictCfg 5)).1 (.int 2) [] ⟨[], [], none⟩ ctx0
  · exact (c4_try_ordering strictCfg (Parse strictCfg 5)).2.1 (.int 2) [] ⟨[], [], none⟩
      ctx0 rfl rfl
  · have h := (c4_try_ordering strictCfg (Parse strictCfg 5)).2.2
      [.sym ⟨none, "try", none⟩, .int 1,
        .list [.sym ⟨none, "catch", none⟩, .sym ⟨none, "Error", none⟩,
          .sym ⟨none, "e", none⟩, .int 2] [],
        .list [.sym ⟨none, "finally", none⟩, .int 3] []] [] ctx0
      [.literal (.int 1) false]
      [("Error", ⟨none, "e", none⟩, [.literal (.int 2) false])]
      (some [.literal (.int 3) false]) ctx0 [] (by rfl)
    simpa using h

/-- The arity invariant of an FnExpr: fixed arities have pairwise
distinct parameter counts, and a variadic arity has strictly more
parameters (its rest parameter included) than every fixed arity. -/
def fnArityInv (arities : List FnArityT) (variadic : Option FnArityT) : Prop :=
  List.Pairwise (fun a b => a.1.length ≠ b.1.length) arities ∧
  ∀ v, variadic = some v → ∀ a ∈ arities, a.1.length < v.1.length

/-- The empty FnExpr satisfies the arity invariant. -/
theorem fnArityInv_empty : fnArityInv [] none := by
  constructor
  · exact List.Pairwise.nil
  · intro v hv
    exact Option.noConfusion hv

/-- registerArity preserves the arity invariant. -/
theorem registerArity_inv (fn : FnAcc) (params : Obj) (args : List Symbol) (isV : Bool)
    (arity : FnArityT) (fn2 : FnAcc)
    (hargs : arity.1 = args)
    (hok : registerArity fn params args isV arity = .ok fn2)
    (hinv : fnArityInv fn.arities fn.variadic) :
    fnArityInv fn2.arities fn2.variadic := by
  rw [registerArity] at hok
  split at hok
  · -- variadic arity being added
    split at hok
    · exact absurd hok (by simp)
    · split at hok
      case isTrue => exact absurd hok (by simp)
      case isFalse hv hany =>
        have hfn2 : fn2 = { fn with variadic := some arity } := (Except.ok.inj hok).symm
        subst hfn2
        refine ⟨hinv.1, ?_⟩
        intro v hvv a ha
        have hv2 : some arity = some v := hvv
        cases Option.some.inj hv2
        rw [hargs]
        have := List.any_eq_false.mp (Bool.not_eq_true _ |>.mp hany) a ha
        simpa using this
  · -- fixed arity being added
    split at hok
    case isTrue => exact absurd hok (by simp)
    case isFalse hany =>
      have hdistinct : ∀ a ∈ fn.arities, a.1.length ≠ args.length := by
        intro a ha
        have := List.any_eq_false.mp (Bool.not_eq_true _ |>.mp hany) a ha
        simpa using this
      have hpair :
          List.Pairwise (fun a b : FnArityT => a.1.length ≠ b.1.length)
            (fn.arities ++ [arity]) := by
        rw [List.pairwise_append]
        refine ⟨hinv.1, List.pairwise_singleton _ _, ?_⟩
        intro a ha b hb
        cases List.mem_singleton.mp hb
        rw [hargs]
        exact hdistinct a ha
      split at hok
      case h_1 v0 hv =>
        split at hok
        · exact absurd hok (by simp)
        case isFalse hge =>
          have hfn2 : fn2 = { fn with arities := fn.arities ++ [arity] } :=
            (Except.ok.inj hok).symm
          subst hfn2
          refine ⟨hpair, ?_⟩
          intro v hvv a ha
          have hv2 : fn.variadic = some v := hvv
          rw [hv] at hv2
          cases Option.some.inj hv2
          rcases List.mem_append.mp ha with h1 | h2
          · exact hinv.2 v0 hv a h1
          · cases List.mem_singleton.mp h2
            rw [hargs]
            omega
      case h_2 hv =>
        have hfn2 : fn2 = { fn with arities := fn.arities ++ [arity] } :=
          (Except.ok.inj hok).symm
        subst hfn2
        refine ⟨hpair, ?_⟩
        intro v hvv
        have hv2 : fn.variadic = some v := hvv
        rw [hv] at hv2
        exact absurd hv2 (by simp)

/-- addArity preserves the arity invariant. -/
theorem addArity_inv (cfg : Config) (p : PFun) (fn : FnAcc) (sig : List Obj)
    (ctx : ParseContext) (fn2 : FnAcc) (ctx2 : ParseContext) (w : List String)
    (hok : addArity cfg p fn sig ctx = .ok (fn2, ctx2, w))
    (hinv : fnArityInv fn.arities fn.variadic) :
    fnArityInv fn2.arities fn2.variadic := by
  rw [addArity] at hok
  split at hok
  · exact absurd hok (by simp)
  case h_2 args isV hp =>
    obtain ⟨bodyExprs, ctxb, w1, w2, hbody, hreg, hw⟩ := bindE_ok_inv _ _ _ _ _ hok
    simp only at hreg
    split at hreg
    · exact absurd hreg (by simp)
    case h_2 fnr hr =>
      have hfr : fnr = fn2 := congrArg (fun t => t.1) (Except.ok.inj hreg)
      rw [← hfr]
      exact registerArity_inv fn (firstD sig) args isV _ fnr rfl hr hinv

/-- The multiple-arities loop preserves the arity invariant. -/
theorem parseFnArities_inv (cfg : Config) (p : PFun) :
    ∀ (bodies : List Obj) (fn : FnAcc) (ctx : ParseContext) (fn2 : FnAcc)
      (ctx2 : ParseContext) (w : List String),
      parseFnArities cfg p fn bodies ctx = .ok (fn2, ctx2, w) →
      fnArityInv fn.arities fn.variadic →
      fnArityInv fn2.arities fn2.variadic := by
  intro bodies
  induction bodies with
  | nil =>
    intro fn ctx fn2 ctx2 w hok hinv
    simp only [parseFnArities, pureR] at hok
    have : fn = fn2 := congrArg (fun t => t.1) (Except.ok.inj hok)
    subst this
    exact hinv
  | cons body rest ih =>
    intro fn ctx fn2 ctx2 w hok hinv
    cases body with
    | list ses m =>
      rw [parseFnArities] at hok
      split at hok
      · exact absurd hok (by simp)
      · obtain ⟨fnm, ctxm, w1, w2, hadd, hloop, hw⟩ := bindE_ok_inv _ _ _ _ _ hok
        exact ih fnm ctxm fn2 ctx2 w2 hloop
          (addArity_inv cfg p fn ses ctx fnm ctxm w1 hadd hinv)
    | nil => exact Except.noConfusion hok
    | bool b => exact Except.noConfusion hok
    | int n => exact Except.noConfusion hok
    | str s2 => exact Except.noConfusion hok
    | keyword k => exact Except.noConfusion hok
    | sym s2 => exact Except.noConfusion hok
    | vec es m2 => exact Except.noConfusion hok
    | typeObj t => exact Except.noConfusion hok

/-- A successful wrapWithMeta of an FnExpr returns it as is or wrapped in
one MetaExpr, and the identified arity fields are the accumulator's. -/
theorem wrapWithMeta_fn_ident (p : PFun) (fn : FnAcc) (obj : Obj) (ctx : ParseContext)
    (e : Expr) (ctx2 : ParseContext) (w : List String)
    (arities : List FnArityT) (variadic : Option FnArityT) (self : Option Symbol)
    (h : wrapWithMeta p (.fnE fn.arities fn.variadic fn.self) obj ctx = .ok (e, ctx2, w))
    (hshape : e = .fnE arities variadic self ∨
      ∃ m, e = .metaE m (.fnE arities variadic self)) :
    fn.arities = arities ∧ fn.variadic = variadic := by
  rw [wrapWithMeta] at h
  split at h
  · have he : Expr.fnE fn.arities fn.variadic fn.self = e :=
      congrArg (fun t => t.1) (Except.ok.inj h)
    rcases hshape with h1 | ⟨m, h1⟩
    · rw [h1] at he
      obtain ⟨ha, hv, _⟩ := Expr.fnE.inj he
      exact ⟨ha, hv⟩
    · rw [h1] at he
      exact Expr.noConfusion he
  · obtain ⟨me, ctxm, w1, w2, hmeta, hret, hw⟩ := bindE_ok_inv _ _ _ _ _ h
    simp only [pureR] at hret
    have he : Expr.metaE me (.fnE fn.arities fn.variadic fn.self) = e :=
      congrArg (fun t => t.1) (Except.ok.inj hret)
    rcases hshape with h1 | ⟨m, h1⟩
    · rw [h1] at he
      exact Expr.noConfusion he
    · rw [h1] at he
      obtain ⟨_, hfn⟩ := Expr.metaE.inj he
      obtain ⟨ha, hv, _⟩ := Expr.fnE.inj hfn
      exact ⟨ha, hv⟩

/-- parseFnRest only returns FnExprs (bare or meta-wrapped) satisfying
the arity invariant, given the accumulator satisfies it. -/
theorem parseFnRest_inv (cfg : Config) (p : PFun) (obj : Obj) (fn0 : FnAcc)
    (bodies : List Obj) (ctx : ParseContext) (e : Expr) (ctx2 : ParseContext)
    (w : List String) (arities : List FnArityT) (variadic : Option FnArityT)
    (self : Option Symbol)
    (hok : parseFnRest cfg p obj fn0 bodies ctx = .ok (e, ctx2, w))
    (hinv : fnArityInv fn0.arities fn0.variadic)
    (hshape : e = .fnE arities variadic self ∨
      ∃ m, e = .metaE m (.fnE arities variadic self)) :
    fnArityInv arities variadic := by
  rw [parseFnRest] at hok
  split at hok
  · obtain ⟨fn, ctxm, w1, w2, hadd, hwrap, hw⟩ := bindE_ok_inv _ _ _ _ _ hok
    obtain ⟨ha, hv⟩ := wrapWithMeta_fn_ident p fn obj ctxm e ctx2 w2 arities variadic self
      hwrap hshape
    rw [← ha, ← hv]
    exact addArity_inv cfg p fn0 bodies ctx fn ctxm w1 hadd hinv
  · split at hok
    · exact absurd hok (by simp)
    · obtain ⟨fn, ctxm, w1, w2, harities, hwrap, hw⟩ := bindE_ok_inv _ _ _ _ _ hok
      obtain ⟨ha, hv⟩ := wrapWithMeta_fn_ident p fn obj ctxm e ctx2 w2 arities variadic self
        hwrap hshape
      rw [← ha, ← hv]
      exact parseFnArities_inv cfg p bodies fn0 ctx fn ctxm w1 harities hinv

/-- C1: every FnExpr the fn parser produces satisfies the arity
invariant: fixed arities have pairwise distinct parameter counts, there
is at most one variadic arity (the field is optional), and a variadic
arity has strictly more parameters than every fixed arity; and the
registration step raises the corresponding ParseError on a duplicate
fixed arity, on a second variadic arity, and on a variadic arity not
exceeding some fixed arity. -/
theorem c1_fn_arity_invariant (cfg : Config) (p : PFun) :
    (∀ (obj : Obj) (ctx : ParseContext) (e : Expr) (ctx2 : ParseContext) (w : List String)
        (arities : List FnArityT) (variadic : Option FnArityT) (self : Option Symbol),
      parseFn cfg p obj ctx = .ok (e, ctx2, w) →
      (e = .fnE arities variadic self ∨
        ∃ m, e = .metaE m (.fnE arities variadic self)) →
      fnArityInv arities variadic) ∧
    (∀ (fn : FnAcc) (params : Obj) (args : List Symbol) (arity : FnArityT),
      (∃ a ∈ fn.arities, a.1.length = args.length) →
      registerArity fn params args false arity =
        .error (.parseErr params "Can't have 2 overloads with same arity")) ∧
    (∀ (fn : FnAcc) (params : Obj) (args : List Symbol) (arity : FnArityT),
      fn.variadic.isSome = true →
      registerArity fn params args true arity =
        .error (.parseErr params "Can't have more than 1 variadic overload")) ∧
    (∀ (fn : FnAcc) (params : Obj) (args : List Symbol) (arity : FnArityT),
      fn.variadic = none →
      (∃ a ∈ fn.arities, a.1.length ≥ args.length) →
      registerArity fn params args true arity =
        .error (.parseErr params
          "Can't have fixed arity function with more params than variadic function")) := by
  refine ⟨?_, ?_, ?_, ?_⟩
  · intro obj ctx e ctx2 w arities variadic self hok hshape
    cases obj with
    | list elems md =>
      rw [parseFn] at hok
      split at hok
      case h_1 s hs =>
        obtain ⟨e1, ctxm, w1, w2, hrest, hpop, hw⟩ := bindE_ok_inv _ _ _ _ _ hok
        simp only [pureR] at hpop
        have he1 : e1 = e := congrArg (fun t => t.1) (Except.ok.inj hpop)
        subst he1
        exact parseFnRest_inv cfg p _ _ _ _ e1 _ _ arities variadic self hrest
          fnArityInv_empty hshape
      case h_2 =>
        exact parseFnRest_inv cfg p _ _ _ _ e _ _ arities variadic self hok
          fnArityInv_empty hshape
    | nil => exact Except.noConfusion hok
    | bool b => exact Except.noConfusion hok
    | int n => exact Except.noConfusion hok
    | str s2 => exact Except.noConfusion hok
    | keyword k => exact Except.noConfusion hok
    | sym s2 => exact Except.noConfusion hok
    | vec es m2 => exact Except.noConfusion hok
    | typeObj t => exact Except.noConfusion hok
  · intro fn params args arity ⟨a, ha, hlen⟩
    rw [registerArity]
    have hany : fn.arities.any (fun a => a.1.length = args.length) = true :=
      List.any_eq_true.mpr ⟨a, ha, by simpa using hlen⟩
    simp [hany]
  · intro fn params args arity hv
    rw [registerArity]
    simp [hv]
  · intro fn params args arity hv ⟨a, ha, hlen⟩
    rw [registerArity]
    have hany : fn.arities.any (fun a => decide (a.1.length ≥ args.length)) = true :=
      List.any_eq_true.mpr ⟨a, ha, by simpa using hlen⟩
    simp [hv, hany]

/-- C1 witness: `(fn* f ([x] x) ([x y & r] x))` parses to an FnExpr with
one fixed arity of one parameter and a variadic of three, satisfying the
invariant; and the three registration errors at concrete inputs. -/
theorem c1_fn_arity_invariant_witness :
    fnArityInv [([⟨none, "x", none⟩], [Expr.bindingE ⟨⟨none, "x", none⟩, 0, 1, true, none⟩],
        none)]
      (some ([⟨none, "x", none⟩, ⟨none, "y", none⟩, ⟨none, "r", none⟩],
        [Expr.bindingE ⟨⟨none, "x", none⟩, 0, 1, true, none⟩], none)) ∧
    registerArity ⟨[([⟨none, "x", none⟩], [], none)], none, none⟩ (.vec [] [])
        [⟨none, "z", none⟩] false ([⟨none, "z", none⟩], [], none) =
      .error (.parseErr (.vec [] []) "Can't have 2 overloads with same arity") ∧
    registerArity ⟨[], some ([⟨none, "r", none⟩], [], none), none⟩ (.vec [] [])
        [⟨none, "z", none⟩] true ([⟨none, "z", none⟩], [], none) =
      .error (.parseErr (.vec [] []) "Can't have more than 1 variadic overload") ∧
    registerArity ⟨[([⟨none, "a", none⟩, ⟨none, "b", none⟩], [], none)], none, none⟩
        (.vec [] []) [⟨none, "z", none⟩] true ([⟨none, "z", none⟩], [], none) =
      .error (.parseErr (.vec [] [])
        "Can't have fixed arity function with more params than variadic function") := by
  refine ⟨?_, ?_, ?_, ?_⟩
  · exact (c1_fn_arity_invariant strictCfg (Parse strictCfg 5)).1
      (.list [.sym ⟨none, "fn*", none⟩, .sym ⟨none, "f", none⟩,
        .list [.vec [.sym ⟨none, "x", none⟩] [], .sym ⟨none, "x", none⟩] [],
        .list [.vec [.sym ⟨none, "x", none⟩, .sym ⟨none, "y", none⟩,
          .sym ⟨none, "&", none⟩, .sym ⟨none, "r", none⟩] [],
          .sym ⟨none, "x", none⟩] []] [])
      ctx0 _ ctx0 [] _ _ (some ⟨none, "f", none⟩) (by rfl) (Or.inl rfl)
  · exact (c1_fn_arity_invariant strictCfg (Parse strictCfg 5)).2.1
      ⟨[([⟨none, "x", none⟩], [], none)], none, none⟩ (.vec [] []) [⟨none, "z", none⟩]
      ([⟨none, "z", none⟩], [], none) ⟨([⟨none, "x", none⟩], [], none), by simp, rfl⟩
  · exact (c1_fn_arity_invariant strictCfg (Parse strictCfg 5)).2.2.1
      ⟨[], some ([⟨none, "r", none⟩], [], none), none⟩ (.vec [] []) [⟨none, "z", none⟩]
      ([⟨none, "z", none⟩], [], none) rfl
  · exact (c1_fn_arity_invariant strictCfg (Parse strictCfg 5)).2.2.2
      ⟨[([⟨none, "a", none⟩, ⟨none, "b", none⟩], [], none)], none, none⟩ (.vec [] [])
      [⟨none, "z", none⟩] ([⟨none, "z", none⟩], [], none) rfl
      ⟨([⟨none, "a", none⟩, ⟨none, "b", none⟩], [], none), by simp, by simp⟩

/-- sortStrings sorts. -/
theorem sortStrings_sorted (l : List String) :
    List.Sorted (fun a b => a ≤ b) (sortStrings l) :=
  List.sorted_insertionSort _ l

/-- sortStrings permutes its input. -/
theorem sortStrings_perm (l : List String) : (sortStrings l).Perm l :=
  List.perm_insertionSort _ l

/-- With distinct keys, at most one pair carries a given key. -/
theorem filter_key_len_le_one (pairs : List (String × Position)) (n : String)
    (h : (pairs.map Prod.fst).Nodup) :
    (pairs.filter (fun pr => pr.1 = n)).length ≤ 1 := by
  induction pairs with
  | nil => simp
  | cons hd tl ih =>
    rw [List.map_cons, List.nodup_cons] at h
    by_cases hh : hd.1 = n
    · have htl : tl.filter (fun pr => pr.1 = n) = [] := by
        rw [List.filter_eq_nil_iff]
        intro a ha
        simp only [decide_eq_true_eq]
        intro han
        exact h.1 (List.mem_map.mpr ⟨a, ha, by rw [han, hh]⟩)
      simp [List.filter_cons, hh, htl]
    · simp only [List.filter_cons, hh, decide_False]
      exact ih h.2

/-- With distinct keys, the last-write-wins position lookup is invariant
under permutation of the collected pairs. -/
theorem lookupLast_perm (pairs1 pairs2 : List (String × Position)) (n : String)
    (hperm : pairs1.Perm pairs2) (hnodup : (pairs1.map Prod.fst).Nodup) :
    lookupLast pairs1 n = lookupLast pairs2 n := by
  have hf : (pairs1.filter (fun pr => pr.1 = n)).Perm
      (pairs2.filter (fun pr => pr.1 = n)) := hperm.filter _
  have h1 := filter_key_len_le_one pairs1 n hnodup
  have heq : pairs1.filter (fun pr => pr.1 = n) = pairs2.filter (fun pr => pr.1 = n) := by
    cases hc : pairs1.filter (fun pr => pr.1 = n) with
    | nil =>
      rw [hc] at hf
      exact (hf.symm.eq_nil).symm
    | cons a l =>
      cases l with
      | nil =>
        rw [hc] at hf
        exact List.singleton_perm.mp hf
      | cons b l2 =>
        rw [hc] at h1
        simp at h1
  rw [lookupLast, lookupLast, heq]

/-- The sorted emission is invariant under permutation of the collected
pairs when the names are distinct. -/
theorem emitSorted_perm_invariant (pairs1 pairs2 : List (String × Position))
    (msgOf : String → String)
    (hperm : pairs1.Perm pairs2) (hnodup : (pairs1.map Prod.fst).Nodup) :
    emitSorted pairs1 msgOf = emitSorted pairs2 msgOf := by
  have hnames : (pairs1.map Prod.fst).Perm (pairs2.map Prod.fst) := hperm.map _
  have hsorteq : sortStrings (pairs1.map Prod.fst) = sortStrings (pairs2.map Prod.fst) :=
    List.eq_of_perm_of_sorted
      (((sortStrings_perm _).trans hnames).trans (sortStrings_perm _).symm)
      (sortStrings_sorted _) (sortStrings_sorted _)
  rw [emitSorted, emitSorted, hsorteq]
  apply List.map_congr_left
  intro n _
  rw [lookupLast_perm pairs1 pairs2 n hperm hnodup]

/-- C8: the end-of-analysis unused-namespace and globally-unused-var
warnings are emitted in ascending lexicographic order of the namespace or
var name, and (with the names distinct, as they are in the environment's
maps) the emitted lines are invariant under any permutation of the
iteration order over namespaces and mappings. -/
theorem c8_sorted_deterministic_warnings :
    (∀ l1 l2 : List NsInfo,
      (collectUnusedNamespaces l1).Perm (collectUnusedNamespaces l2) →
      ((collectUnusedNamespaces l1).map Prod.fst).Nodup →
      WarnOnUnusedNamespaces l1 = WarnOnUnusedNamespaces l2) ∧
    (∀ l : List NsInfo,
      WarnOnUnusedNamespaces l =
        (sortStrings ((collectUnusedNamespaces l).map Prod.fst)).map
          (fun n => renderDiag (lookupLast (collectUnusedNamespaces l) n)
            (printParseWarning ("unused namespace " ++ n))) ∧
      List.Sorted (fun a b => a ≤ b)
        (sortStrings ((collectUnusedNamespaces l).map Prod.fst))) ∧
    (∀ l1 l2 : List NsInfo,
      (collectGloballyUnusedVars l1).Perm (collectGloballyUnusedVars l2) →
      ((collectGloballyUnusedVars l1).map Prod.fst).Nodup →
      WarnOnGloballyUnusedVars l1 = WarnOnGloballyUnusedVars l2) ∧
    (∀ l : List NsInfo,
      WarnOnGloballyUnusedVars l =
        (sortStrings ((collectGloballyUnusedVars l).map Prod.fst)).map
          (fun n => renderDiag (lookupLast (collectGloballyUnusedVars l) n)
            (printParseWarning ("globally unused var " ++ n))) ∧
      List.Sorted (fun a b => a ≤ b)
        (sortStrings ((collectGloballyUnusedVars l).map Prod.fst))) := by
  refine ⟨?_, ?_, ?_, ?_⟩
  · intro l1 l2 hperm hnodup
    exact emitSorted_perm_invariant _ _ _ hperm hnodup
  · intro l
    exact ⟨rfl, sortStrings_sorted _⟩
  · intro l1 l2 hperm hnodup
    exact emitSorted_perm_invariant _ _ _ hperm hnodup
  · intro l
    exact ⟨rfl, sortStrings_sorted _⟩

/-- C8 witness: two namespaces (and two vars) visited in either order
produce identical, name-sorted warning lines. -/
theorem c8_sorted_deterministic_warnings_witness :
    WarnOnUnusedNamespaces
        [⟨"b.ns", false, false, false, false, false, false, some ⟨"b.clj", 1, 1⟩, []⟩,
          ⟨"a.ns", false, false, false, false, false, false, some ⟨"a.clj", 2, 2⟩, []⟩] =
      WarnOnUnusedNamespaces
        [⟨"a.ns", false, false, false, false, false, false, some ⟨"a.clj", 2, 2⟩, []⟩,
          ⟨"b.ns", false, false, false, false, false, false, some ⟨"b.clj", 1, 1⟩, []⟩] ∧
    WarnOnGloballyUnusedVars
        [⟨"m", false, false, true, true, false, false, none,
          [⟨some "m", "y", false, false, false, false, some ⟨"m.clj", 3, 1⟩⟩,
            ⟨some "m", "x", false, false, false, false, some ⟨"m.clj", 4, 1⟩⟩]⟩] =
      WarnOnGloballyUnusedVars
        [⟨"m", false, false, true, true, false, false, none,
          [⟨some "m", "x", false, false, false, false, some ⟨"m.clj", 4, 1⟩⟩,
            ⟨some "m", "y", false, false, false, false, some ⟨"m.clj", 3, 1⟩⟩]⟩] := by
  constructor
  · exact c8_sorted_deterministic_warnings.1
      [⟨"b.ns", false, false, false, false, false, false, some ⟨"b.clj", 1, 1⟩, []⟩,
        ⟨"a.ns", false, false, false, false, false, false, some ⟨"a.clj", 2, 2⟩, []⟩]
      [⟨"a.ns", false, false, false, false, false, false, some ⟨"a.clj", 2, 2⟩, []⟩,
        ⟨"b.ns", false, false, false, false, false, false, some ⟨"b.clj", 1, 1⟩, []⟩]
      (by decide) (by decide)
  · exact c8_sorted_deterministic_warnings.2.2.1
      [⟨"m", false, false, true, true, false, false, none,
        [⟨some "m", "y", false, false, false, false, some ⟨"m.clj", 3, 1⟩⟩,
          ⟨some "m", "x", false, false, false, false, some ⟨"m.clj", 4, 1⟩⟩]⟩]
      [⟨"m", false, false, true, true, false, false, none,
        [⟨some "m", "x", false, false, false, false, some ⟨"m.clj", 4, 1⟩⟩,
          ⟨some "m", "y", false, false, false, false, some ⟨"m.clj", 3, 1⟩⟩]⟩]
      (by decide) (by decide)

end Joker
